import Mathlib

/-!
# Snippets tokenization, runtime optimizers and CPU shape inference

A shallow embedding of the parts of the repository that the specification's
properties are about:

* `ov.snippets.pass`: the predicates of `collapse_subgraph.cpp`
  (`is_supported_op`, `has_supported_in_out`,
  `TokenizeSnippets::AppropriateForSubgraph`);
* `ov.snippets.lowered.pass`: `RuntimeOptimizer::register_if_applicable`
  (`runtime_optimizer.hpp`) and the loop marking of `MarkLoops`;
* `ov.intel_cpu.node`: the shape inference of Reshape, Squeeze and Unsqueeze
  (`reshape.cpp`) and the paged attention node (`paged_attn.cpp`);
* `ov.pass`: the callback of `ConvertPagedAttnInputs`
  (`convert_pagedattn_inputs.cpp`).

A graph node is represented by what the predicates read from it: its operation
type with the attributes that are queried, its input and output ports with the
rank and element type of their tensors, the operations of the neighbouring
nodes, and its control dependencies.
-/

namespace ov

/-! ## Data model -/

/-- Element types of `ov::element`. -/
inductive ElementType where
  | dynamic | boolean | bf16 | f16 | f32 | f64
  | i4 | i8 | i16 | i32 | i64
  | u1 | u4 | u8 | u16 | u32 | u64
  deriving DecidableEq, Repr

/-- The rank of a partial shape (`ov::Rank`): `none` is a dynamic rank,
`some r` a static rank of length `r`. -/
abbrev Rank := Option Nat

/-- Predicate `Rank::is_dynamic`. -/
def Rank.is_dynamic (r : Rank) : Bool := r.isNone

/-- Predicate `Rank::is_static`. -/
def Rank.is_static (r : Rank) : Bool := r.isSome

/-- Broadcast kinds of `ov::op::AutoBroadcastType`. -/
inductive AutoBroadcastType where
  | NONE | NUMPY | PDPD
  deriving DecidableEq, Repr

/-- Broadcast kinds of `ov::op::BroadcastType`. -/
inductive BroadcastType where
  | NONE | NUMPY | PDPD | BIDIRECTIONAL
  deriving DecidableEq, Repr

/-- Values returned by `GetSnippetsSubgraphType`. -/
inductive SnippetsSubgraphType where
  | NotSet | Completed
  deriving DecidableEq, Repr

/-- The type of an operation (`ov::DiscreteTypeInfo`), the opset version included
where the tokenizer tells two versions apart. `MatMul` is `opset1::MatMul`
(`ov::op::v0::MatMul`), `Transpose` is `opset1::Transpose`; `Other` stands for
every type the tokenizer does not name. -/
inductive NodeType where
  | Abs | Clamp | Floor | Ceiling | Elu | Erf | Exp | LogicalNot | Mish | Negative
  | Relu | Round | Sigmoid | Sqrt | Tanh | Gelu_v0 | Gelu_v7 | Swish | HSwish
  | Add | Divide | Equal | FloorMod | Greater | GreaterEqual | Less | LessEqual
  | LogicalAnd | LogicalOr | LogicalXor | Maximum | Minimum | Mod | Multiply
  | NotEqual | PRelu | Power | SquaredDifference | Subtract | Xor | Convert
  | Select | FakeQuantize | Transpose | MatMul
  | Softmax_v1 | Softmax_v8 | Broadcast_v1 | Broadcast_v3 | ReduceMax | ReduceSum
  | Constant | Subgraph | Loop | Other
  deriving DecidableEq, Repr

/-- The operation of a node: its type together with the attributes the tokenizer
reads.

* `Softmax_v1 axis`: `axis` is the `size_t` attribute of `ov::op::v1::Softmax`;
* `Softmax_v8 axis`: `axis` is the `int64_t` attribute of `ov::op::v8::Softmax`;
* `Broadcast_v1 spec`, `Broadcast_v3 spec`: `get_broadcast_spec().m_type`;
* `ReduceMax keep_dims`, `ReduceSum keep_dims`: the `v1` reductions;
* `Constant shape data`: the static shape and the values of a constant;
* `Subgraph type body_result_is_matmul`: a snippets subgraph, its subgraph type
  and, for every result of its body, whether the node feeding that result is an
  `opset1::MatMul`;
* `Simple t`: an operation of type `t` none of whose attributes is read (the
  types that have no constructor of their own). -/
inductive Op where
  | Simple (type_info : NodeType)
  | Softmax_v1 (axis : Nat)
  | Softmax_v8 (axis : Int)
  | Broadcast_v1 (spec : AutoBroadcastType)
  | Broadcast_v3 (spec : BroadcastType)
  | ReduceMax (keep_dims : Bool)
  | ReduceSum (keep_dims : Bool)
  | Constant (shape : List Nat) (data : List Int)
  | Subgraph (type : SnippetsSubgraphType) (body_result_is_matmul : List Bool)
  deriving DecidableEq, Repr

/-- The type of an operation (`get_type_info()`), on which `ov::is_type` and
`ov::as_type_ptr` decide. -/
def Op.type_info : Op → NodeType
  | Op.Simple t => t
  | Op.Softmax_v1 _ => NodeType.Softmax_v1
  | Op.Softmax_v8 _ => NodeType.Softmax_v8
  | Op.Broadcast_v1 _ => NodeType.Broadcast_v1
  | Op.Broadcast_v3 _ => NodeType.Broadcast_v3
  | Op.ReduceMax _ => NodeType.ReduceMax
  | Op.ReduceSum _ => NodeType.ReduceSum
  | Op.Constant _ _ => NodeType.Constant
  | Op.Subgraph _ _ => NodeType.Subgraph

/-- A tensor descriptor (`descriptor::Tensor`): the rank of its partial shape and
its element type. -/
structure Tensor where
  rank : Rank
  element_type : ElementType
  deriving DecidableEq, Repr

/-- An input port: its tensor, the operation of the node that produces it
(`get_input_node_shared_ptr`) and the index of the producing output
(`input_value(i).get_index()`). -/
structure Input where
  tensor : Tensor
  source : Op
  source_index : Nat
  deriving DecidableEq, Repr

/-- An output port: its tensor and the operations of the nodes that consume it,
in the iteration order of `get_target_inputs()`. -/
structure Output where
  tensor : Tensor
  target_inputs : List Op
  deriving DecidableEq, Repr

/-- A graph node as the tokenizer sees it. `control_dependencies` lists the
operations of the nodes returned by `get_control_dependencies()`. -/
structure Node where
  op : Op
  inputs : List Input
  outputs : List Output
  control_dependencies : List Op
  deriving DecidableEq, Repr

/-- Conversion of a `size_t` value to `int64_t` (two's complement, 64 bits). -/
def size_t_to_int64 (x : Nat) : Int :=
  if x % 2 ^ 64 < 2 ^ 63 then ((x % 2 ^ 64 : Nat) : Int) else ((x % 2 ^ 64 : Nat) : Int) - 2 ^ 64

/-- Function `ov::shape_size`: the product of the dimensions of a static shape. -/
def shape_size (shape : List Nat) : Nat := shape.prod

namespace util

/-- Modelled from the spec: `ov::util::try_normalize_axis` is declared in
`openvino/core/validation_util.hpp`, which is not among the sources. The
specification speaks of the axis "normalised against r", where a negative axis
counts from the end: a negative axis is shifted by the rank. -/
def try_normalize_axis (axis : Int) (rank : Nat) : Int :=
  if axis < 0 then axis + rank else axis

/-- Modelled from the spec: `ov::util::normalize` is declared outside the
sources. The specification speaks of "a normalised against r (a negative a
counts from the end)": a negative value is shifted by the maximum. -/
def normalize (value : Int) (max : Int) : Int :=
  if value < 0 then value + max else value

end util

namespace snippets

namespace utils

/-- Modelled from the spec: `utils::all_of(val, items...)` of
`snippets/utils/utils.hpp` (not among the sources) holds when `val` equals every
item, as in "(f32, f32)" and "(bf16, bf16)". -/
def all_of {α : Type} [DecidableEq α] (val : α) (items : List α) : Bool :=
  items.all (fun item => decide (val = item))

/-- Modelled from the spec: `utils::any_of(val, items...)` of
`snippets/utils/utils.hpp` (not among the sources) holds when `val` equals some
item, as in "i8 or u8". -/
def any_of {α : Type} [DecidableEq α] (val : α) (items : List α) : Bool :=
  items.any (fun item => decide (val = item))

end utils

namespace pass

/-- The functions `collapse_subgraph.cpp` calls whose definitions are in files
that are not among the sources. They are parameters of the embedding.

* `is_supported_fq`: `CommonFakeQuantizeDecomposition::is_supported_fq`, applied
  to the result of `as_type_ptr<FakeQuantize>` (`none` is the null pointer);
* `decomposition_is_supported_transpose_order`:
  `TransposeDecomposition::is_supported_transpose_order`;
* `brgemm_is_supported_transpose_order`:
  `FuseTransposeBrgemm::is_supported_transpose_order`;
* `check_broadcast`: `snippets::op::Subgraph::check_broadcast`. -/
structure Externals where
  is_supported_fq : Option Node → Bool
  decomposition_is_supported_transpose_order : List Int → Bool
  brgemm_is_supported_transpose_order : List Int → Bool
  check_broadcast : Node → Bool

/-- Template `ov::is_type<T>(n)`. -/
def is_type (type : NodeType) (n : Node) : Bool := decide (n.op.type_info = type)

/-- Template `ov::is_type_any_of<Types...>(n)`. -/
def is_type_any_of (types : List NodeType) (n : Node) : Bool := types.contains n.op.type_info

/-- Lambda `is_supported_matmul` of `is_supported_op`. A node without an output
has no `get_output_partial_shape(0)` and a node with fewer than two inputs no
`get_input_element_type(1)`; such nodes are not accepted. -/
def is_supported_matmul (n : Node) : Bool :=
  match n.outputs with
  | [] => false
  | out0 :: _ =>
    let out_rank := out0.tensor.rank
    if !is_type NodeType.MatMul n || out_rank.is_dynamic || decide (out_rank ≠ some 4) then false
    else
      match n.inputs with
      | in0 :: in1 :: _ =>
        let intype_0 := in0.tensor.element_type
        let intype_1 := in1.tensor.element_type
        let is_f32 := utils.all_of ElementType.f32 [intype_0, intype_1]
        let is_int8 := utils.any_of intype_0 [ElementType.i8, ElementType.u8] &&
          decide (intype_1 = ElementType.i8)
        let is_bf16 := utils.all_of ElementType.bf16 [intype_0, intype_1]
        is_f32 || is_bf16 || is_int8
      | _ => false

/-- Lambda `is_supported_transpose` of `is_supported_op`. The child is the first
consumer of output 0; a transpose without a consumer, or without its two inputs,
is not accepted. The pair computed from the parent is
`(decomposition_case, is_brgemm_case)`. -/
def is_supported_transpose (E : Externals) (n : Node) : Bool :=
  if is_type NodeType.Transpose n then
    match n.inputs, n.outputs with
    | in0 :: in1 :: _, out0 :: _ =>
      match out0.target_inputs with
      | [] => false
      | child :: _ =>
        let child_is_matmul := decide (child.type_info = NodeType.MatMul)
        let cases : Bool × Bool :=
          match in0.source with
          | Op.Subgraph type body_result_is_matmul =>
            if type ≠ SnippetsSubgraphType.Completed then
              (false, child_is_matmul || body_result_is_matmul.getD in0.source_index false)
            else (true, child_is_matmul)
          | _ => (true, child_is_matmul)
        let decomposition_case := cases.1
        let is_brgemm_case := cases.2
        match in1.source with
        | Op.Constant _ order_value =>
          (decomposition_case && E.decomposition_is_supported_transpose_order order_value) ||
            (is_brgemm_case && E.brgemm_is_supported_transpose_order order_value)
        | _ => false
    | _, _ => false
  else false

/-- Lambda `is_supported_fq_op` of `is_supported_op`. -/
def is_supported_fq_op (E : Externals) (n : Node) : Bool :=
  E.is_supported_fq (if is_type NodeType.FakeQuantize n then some n else none)

/-- Lambda `is_supported_ternary_eltwise_op` of `is_supported_op`. -/
def is_supported_ternary_eltwise_op (n : Node) : Bool := is_type NodeType.Select n

/-- Lambda `is_supported_binary_eltwise_op` of `is_supported_op`. -/
def is_supported_binary_eltwise_op (n : Node) : Bool :=
  is_type_any_of
    [NodeType.Add, NodeType.Divide, NodeType.Equal, NodeType.FloorMod, NodeType.Greater,
     NodeType.GreaterEqual, NodeType.Less, NodeType.LessEqual, NodeType.LogicalAnd,
     NodeType.LogicalOr, NodeType.LogicalXor, NodeType.Maximum, NodeType.Minimum,
     NodeType.Mod, NodeType.Multiply, NodeType.NotEqual, NodeType.PRelu, NodeType.Power,
     NodeType.SquaredDifference, NodeType.Subtract, NodeType.Xor, NodeType.Convert] n

/-- Lambda `is_supported_unary_eltwise_op` of `is_supported_op`. -/
def is_supported_unary_eltwise_op (n : Node) : Bool :=
  is_type_any_of
    [NodeType.Abs, NodeType.Clamp, NodeType.Floor, NodeType.Ceiling, NodeType.Elu,
     NodeType.Erf, NodeType.Exp, NodeType.LogicalNot, NodeType.Mish, NodeType.Negative,
     NodeType.Relu, NodeType.Round, NodeType.Sigmoid, NodeType.Sqrt, NodeType.Tanh,
     NodeType.Gelu_v0, NodeType.Gelu_v7, NodeType.Swish, NodeType.HSwish] n

/-- Lambda `is_supported_softmax` of `is_supported_op`. The local `axis` is an
`int64_t`; the `size_t` axis of a `v1` softmax is converted to it. -/
def is_supported_softmax (n : Node) : Bool :=
  match n.inputs with
  | [in0] =>
    match in0.tensor.rank with
    | none => false
    | some length =>
      match n.op with
      | Op.Softmax_v8 softmax_axis =>
        let axis := util.try_normalize_axis softmax_axis length
        decide (0 ≤ axis) && decide (axis = (length : Int) - 1)
      | Op.Softmax_v1 softmax_axis =>
        let axis := size_t_to_int64 softmax_axis
        decide (0 ≤ axis) && decide (axis = (length : Int) - 1)
      | _ => false
  | _ => false

/-- Lambda `is_supported_broadcast_op` of `is_supported_op`. -/
def is_supported_broadcast_op (n : Node) : Bool :=
  match n.op with
  | Op.Broadcast_v1 spec => decide (spec = AutoBroadcastType.NUMPY)
  | Op.Broadcast_v3 spec => decide (spec = BroadcastType.NUMPY)
  | _ => false

/-- The body of `is_supported_reduce_op` once the node is known to be a
`ReduceMax` or `ReduceSum` with the given `keep_dims`: input 1 is the axes
input, `data` the values `cast_vector<int32_t>` reads from it, of which
`axis_value` is the first. A reduction without its two inputs, or an axes
constant without a value, is not accepted. -/
def is_supported_reduce_body (keep_dims : Bool) (n : Node) : Bool :=
  match n.inputs with
  | in0 :: in1 :: _ =>
    match in0.tensor.rank, in1.source with
    | some length, Op.Constant shape data =>
      if !keep_dims || decide (shape_size shape ≠ 1) then false
      else
        match data with
        | axis_value :: _ =>
          let normalized_axis := util.normalize axis_value (length : Int)
          decide (normalized_axis = (length : Int) - 1)
        | [] => false
    | _, _ => false
  | _ => false

/-- Lambda `is_supported_reduce_op` of `is_supported_op`. -/
def is_supported_reduce_op (n : Node) : Bool :=
  match n.op with
  | Op.ReduceMax keep_dims => is_supported_reduce_body keep_dims n
  | Op.ReduceSum keep_dims => is_supported_reduce_body keep_dims n
  | _ => false

/-- Function `is_supported_op` of `collapse_subgraph.cpp`. -/
def is_supported_op (E : Externals) (n : Node) : Bool :=
  is_supported_fq_op E n || is_supported_unary_eltwise_op n ||
    is_supported_binary_eltwise_op n || is_supported_ternary_eltwise_op n ||
    is_supported_transpose E n || is_supported_softmax n || is_supported_matmul n ||
    is_supported_broadcast_op n || is_supported_reduce_op n

/-- Lambda `supported` of `has_supported_in_out`. -/
def supported (t : Tensor) : Bool := t.rank.is_static

/-- Function `has_supported_in_out` of `collapse_subgraph.cpp`. -/
def has_supported_in_out (n : Node) : Bool :=
  if n.outputs.any
      (fun out => out.target_inputs.any (fun in_out => decide (in_out.type_info = NodeType.Loop)))
  then false
  else n.inputs.all (fun inp => supported inp.tensor) &&
    n.outputs.all (fun out => supported out.tensor)

/-- Function `TokenizeSnippets::AppropriateForSubgraph`. -/
def AppropriateForSubgraph (E : Externals) (node : Node) : Bool :=
  is_supported_op E node && has_supported_in_out node &&
    node.control_dependencies.isEmpty && E.check_broadcast node

/-! ### Concrete nodes and a concrete environment, for evaluation -/

/-- An input port fed by a node of no particular type, with a tensor of the given
rank and element type. -/
def plain_input (rank : Rank) (element_type : ElementType) : Input :=
  { tensor := { rank := rank, element_type := element_type },
    source := Op.Simple NodeType.Other, source_index := 0 }

/-- An output port with one consumer of no particular type. -/
def plain_output (rank : Rank) (element_type : ElementType) : Output :=
  { tensor := { rank := rank, element_type := element_type },
    target_inputs := [Op.Simple NodeType.Other] }

/-- A `MatMul` node with two `f32` inputs of rank 4 and an output of the given rank. -/
def matmul_f32_node (out_rank : Rank) : Node :=
  { op := Op.Simple NodeType.MatMul,
    inputs := [plain_input (some 4) ElementType.f32, plain_input (some 4) ElementType.f32],
    outputs := [plain_output out_rank ElementType.f32],
    control_dependencies := [] }

/-- A `Relu` node on an `f32` tensor of the given rank, with the given control
dependencies. -/
def relu_node (rank : Rank) (control_dependencies : List Op) : Node :=
  { op := Op.Simple NodeType.Relu,
    inputs := [plain_input rank ElementType.f32],
    outputs := [plain_output rank ElementType.f32],
    control_dependencies := control_dependencies }

/-- A `ReduceSum` with `keep_dims` set on an `f32` tensor of the given rank, its
axes input a constant of shape `[1]` holding `axis`. -/
def reduce_sum_node (rank : Rank) (axis : Int) : Node :=
  { op := Op.ReduceSum true,
    inputs := [plain_input rank ElementType.f32,
      { tensor := { rank := some 1, element_type := ElementType.i32 },
        source := Op.Constant [1] [axis], source_index := 0 }],
    outputs := [plain_output rank ElementType.f32],
    control_dependencies := [] }

/-- An environment for evaluation: no fake quantize and no transpose order is
supported, and every node passes `check_broadcast`. -/
def sample_externals : Externals :=
  { is_supported_fq := fun _ => false,
    decomposition_is_supported_transpose_order := fun _ => false,
    brgemm_is_supported_transpose_order := fun _ => false,
    check_broadcast := fun _ => true }

end pass

namespace lowered
namespace pass

/-! ## Runtime optimizers (`runtime_optimizer.hpp`) -/

/-- Modelled from the spec: `PassPipeline` is declared in
`snippets/lowered/pass/pass.hpp`, which is not among the sources. A pipeline
holds the passes registered in it, in registration order. -/
structure PassPipeline (P : Type) where
  passes : List P

/-- Modelled from the spec: `PassPipeline::register_pass` registers the pass in
the pipeline, after the passes registered before. -/
def PassPipeline.register_pass {P : Type} (pipeline : PassPipeline P) (pass : P) :
    PassPipeline P :=
  { passes := pipeline.passes ++ [pass] }

/-- An optimizer type `OptimizerType` derived from `RuntimeOptimizer`: its
constructor, from the forwarded arguments, and its `applicable()` method, a
`const` method of the constructed object. -/
structure OptimizerType (Args P : Type) where
  construct : Args → P
  applicable : P → Bool

/-- The calls `register_if_applicable` makes, as they are observed. -/
inductive Call (P : Type) where
  | make_shared (pass : P)
  | applicable (pass : P) (result : Bool)
  | register_pass (pass : P)
  deriving DecidableEq, Repr

/-- The state `register_if_applicable` acts on: the pipeline it was given and
the record of the calls made so far. -/
structure RegistrationState (P : Type) where
  pipeline : PassPipeline P
  calls : List (Call P)

/-- Call `std::make_shared<OptimizerType>(std::forward<Args>(args)...)`. -/
def make_shared {Args P : Type} (T : OptimizerType Args P) (args : Args)
    (s : RegistrationState P) : P × RegistrationState P :=
  (T.construct args, { s with calls := s.calls ++ [Call.make_shared (T.construct args)] })

/-- Call `pass->applicable()`. -/
def call_applicable {Args P : Type} (T : OptimizerType Args P) (pass : P)
    (s : RegistrationState P) : Bool × RegistrationState P :=
  (T.applicable pass, { s with calls := s.calls ++ [Call.applicable pass (T.applicable pass)] })

/-- Call `pipeline.register_pass(pass)`. -/
def call_register_pass {P : Type} (pass : P) (s : RegistrationState P) : RegistrationState P :=
  { pipeline := s.pipeline.register_pass pass, calls := s.calls ++ [Call.register_pass pass] }

/-- Function `RuntimeOptimizer::register_if_applicable<OptimizerType>`. -/
def register_if_applicable {Args P : Type} (T : OptimizerType Args P) (args : Args)
    (s : RegistrationState P) : RegistrationState P :=
  let (pass, s1) := make_shared T args s
  let (is_applicable, s2) := call_applicable T pass s1
  if is_applicable then call_register_pass pass s2 else s2

end pass
end lowered
end snippets

namespace intel_cpu
namespace node

/-! ## Reshape shape inference (`shape_inference/custom/reshape.cpp`) -/

/-- Type `VectorDims`: a `std::vector<size_t>`, every entry below `2 ^ 64`. -/
abbrev VectorDims := List Nat

/-- Reduction of an unsigned result to `size_t` (64 bits). -/
def to_size_t (x : Nat) : Nat := x % 2 ^ 64

/-- Conversion of a signed value (`int`, `int64_t`) to `size_t`. -/
def signed_to_size_t (v : Int) : Nat := (v % 2 ^ 64).toNat

/-- Conversion of a `size_t` value to `int` (32 bits, two's complement). -/
def size_t_to_int (x : Nat) : Int :=
  if x % 2 ^ 32 < 2 ^ 31 then ((x % 2 ^ 32 : Nat) : Int) else ((x % 2 ^ 32 : Nat) : Int) - 2 ^ 32

/-- Call `std::accumulate(v.begin(), v.end(), 1, std::multiplies<>())` on a
`VectorDims`: the initial value `1` is an `int`, so the accumulator is an `int`;
every step multiplies in `size_t` and stores the product back into the `int`. -/
def accumulate_multiplies (v : VectorDims) : Int :=
  v.foldl (fun acc d => size_t_to_int (to_size_t (signed_to_size_t acc * d))) 1

/-- The locals the first loop of `ReshapeShapeInfer::infer` updates. -/
structure PatternScan where
  outputShape : VectorDims
  outputProduct : Nat
  minusOneIdx : Int
  minusOneCount : Int
  deriving DecidableEq, Repr

/-- One iteration, at index `i`, of the first loop of `ReshapeShapeInfer::infer`. -/
def scan_pattern_step (m_specialZero : Bool) (inputShape : VectorDims) (outPattern : List Int)
    (st : PatternScan) (i : Nat) : PatternScan :=
  if outPattern.getD i 0 = 0 ∧ m_specialZero = true ∧ i < inputShape.length then
    { st with outputShape := st.outputShape.set i (inputShape.getD i 0) }
  else if outPattern.getD i 0 = -1 then
    { st with minusOneIdx := (i : Int), minusOneCount := st.minusOneCount + 1 }
  else
    let d := signed_to_size_t (outPattern.getD i 0)
    { st with outputShape := st.outputShape.set i d,
              outputProduct := to_size_t (st.outputProduct * d) }

/-- One iteration, at index `i`, of the second loop of `ReshapeShapeInfer::infer`. -/
def input_product_step (m_specialZero : Bool) (inputShape : VectorDims) (outPattern : List Int)
    (inputProduct : Nat) (i : Nat) : Nat :=
  if i < outPattern.length ∧ outPattern.getD i 0 = 0 ∧ m_specialZero = true then inputProduct
  else to_size_t (inputProduct * inputShape.getD i 0)

/-- The failure of the `OPENVINO_ASSERT` of `ReshapeShapeInfer::infer`: "[cpu]reshape:
the shape of input data ... conflicts with the reshape pattern ...". -/
inductive ReshapeError where
  | conflicts (inputShape : VectorDims) (outPattern : List Int)
  deriving DecidableEq, Repr

/-- Method `ReshapeShapeInfer::infer`. `inputShape` is `input_shapes[RESHAPE_SRC]`
and `outPattern` the `outputPatternSize` values read from the pattern memory, so
`outputPatternSize` is the length of `outPattern`. The loop counters are `int32_t`;
patterns and shapes have fewer than `2 ^ 31` entries. -/
def ReshapeShapeInfer.infer (m_specialZero : Bool) (inputShape : VectorDims)
    (outPattern : List Int) : Except ReshapeError VectorDims :=
  let outputPatternSize := outPattern.length
  let st := (List.range outputPatternSize).foldl
    (scan_pattern_step m_specialZero inputShape outPattern)
    { outputShape := List.replicate outputPatternSize 0, outputProduct := 1,
      minusOneIdx := -1, minusOneCount := 0 }
  let inputProduct := (List.range inputShape.length).foldl
    (input_product_step m_specialZero inputShape outPattern) 1
  let outputShape :=
    if 0 ≤ st.minusOneIdx then
      if st.outputProduct ≠ 0 then
        st.outputShape.set st.minusOneIdx.toNat (inputProduct / st.outputProduct)
      else st.outputShape.set st.minusOneIdx.toNat 0
    else st.outputShape
  let inputProduct := signed_to_size_t (accumulate_multiplies inputShape)
  let outputProduct := signed_to_size_t (accumulate_multiplies outputShape)
  if st.minusOneCount ≤ 1 ∧ inputProduct = outputProduct then Except.ok outputShape
  else Except.error (ReshapeError.conflicts inputShape outPattern)

end node
end intel_cpu
end ov

namespace ov
namespace intel_cpu

/-- Modelled from the spec: `any_of(val, items...)` of `utils/general_utils.h` (not
among the sources) holds when `val` is "one of" the items. -/
def any_of {α : Type} [DecidableEq α] (val : α) (items : List α) : Bool :=
  items.any (fun item => decide (val = item))

/-- Modelled from the spec: `none_of(val, items...)` of `utils/general_utils.h` (not
among the sources) holds when `val` is "none of" the items. -/
def none_of {α : Type} [DecidableEq α] (val : α) (items : List α) : Bool :=
  !any_of val items

/-- Layout types of `LayoutType` that `BlockedDescCreator::getCommonCreators`
registers. -/
inductive LayoutType where
  | nspc | nCsp8c | nCsp16c | ncsp
  deriving DecidableEq, Repr

/-- A `Shape` of the plugin, by its dims (`getDims()`); its rank is their number. -/
abbrev Shape := List Nat

/-- A `CpuBlockedMemoryDesc` as `createDesc` builds it: precision, shape, blocked
dims and order. -/
structure CpuBlockedMemoryDesc where
  precision : ElementType
  shape : Shape
  blockedDims : List Nat
  order : List Nat
  deriving DecidableEq, Repr

/-- Method `PlainFormatCreator::createDesc` (`blocked_desc_creator.cpp`), the
creator registered for `LayoutType::ncsp`; `createSharedDesc` shares its result. -/
def PlainFormatCreator.createDesc (precision : ElementType) (srcShape : Shape) :
    CpuBlockedMemoryDesc :=
  { precision := precision, shape := srcShape, blockedDims := srcShape,
    order := List.range srcShape.length }

namespace node

/-! ## Paged attention (`nodes/paged_attn.cpp`) -/

namespace PagedAttentionExecutor

/-- Modelled from the spec: the port indices `PagedAttentionExecutor::ID_*` are
declared in `executor_pa_common.hpp`, which is not among the sources. They number
the inputs in the order Q, K, V, key cache, value cache, past_lens,
subsequence_begins, block_indices, block_indices_begins, scale, sliding_window,
alibi_slopes, max_context_len, score_aggregation_window, rotated_block_indices,
rotation_deltas, rotation_trig_lut, xattention_threshold, xattention_block_size,
xattention_stride, the order of the inputs of `PagedAttentionExtension` in
`convert_pagedattn_inputs.cpp`. -/
def ID_Q : Nat := 0

/-- Modelled from the spec: port of K (see `ID_Q`). -/
def ID_K : Nat := 1

/-- Modelled from the spec: port of V (see `ID_Q`). -/
def ID_V : Nat := 2

/-- Modelled from the spec: port of the key cache (see `ID_Q`). -/
def ID_KCACHE : Nat := 3

/-- Modelled from the spec: port of the value cache (see `ID_Q`). -/
def ID_VCACHE : Nat := 4

/-- Modelled from the spec: port of past_lens (see `ID_Q`). -/
def ID_PAST_LENS : Nat := 5

/-- Modelled from the spec: port of subsequence_begins (see `ID_Q`). -/
def ID_SUBSEQUENCE_BEGINS : Nat := 6

/-- Modelled from the spec: port of block_indices (see `ID_Q`). -/
def ID_BLOCK_INDICES : Nat := 7

/-- Modelled from the spec: port of block_indices_begins (see `ID_Q`). -/
def ID_BLOCK_INDICES_BEGINS : Nat := 8

/-- Modelled from the spec: port of scale (see `ID_Q`). -/
def ID_SCALE : Nat := 9

/-- Modelled from the spec: port of sliding_window (see `ID_Q`). -/
def ID_SLIDING_WINDOW : Nat := 10

/-- Modelled from the spec: port of alibi_slopes (see `ID_Q`). -/
def ID_ALIBI_SLOPES : Nat := 11

/-- Modelled from the spec: port of max_context_len (see `ID_Q`). -/
def ID_MAX_CONTEXT_LEN : Nat := 12

/-- Modelled from the spec: port of score_aggregation_window (see `ID_Q`). -/
def ID_SCORE_AGGREGATION_WINDOW : Nat := 13

/-- Modelled from the spec: port of rotated_block_indices (see `ID_Q`). -/
def ID_ROTATED_BLOCK_INDICES : Nat := 14

/-- Modelled from the spec: port of rotation_deltas (see `ID_Q`). -/
def ID_ROTATION_DELTAS : Nat := 15

/-- Modelled from the spec: port of rotation_trig_lut (see `ID_Q`). -/
def ID_ROTATION_TRIG_LUT : Nat := 16

/-- Modelled from the spec: port of xattention_threshold (see `ID_Q`). -/
def ID_XATTENTION_THRESHOLD : Nat := 17

/-- Modelled from the spec: port of xattention_block_size (see `ID_Q`). -/
def ID_XATTENTION_BLOCK_SIZE : Nat := 18

/-- Modelled from the spec: port of xattention_stride (see `ID_Q`). -/
def ID_XATTENTION_STRIDE : Nat := 19

end PagedAttentionExecutor

/-- What `PagedAttention::isSupportedOperation` reads from the `ov::Node`: its type
name and the element types of its inputs, whose number is `get_input_size()`. -/
structure PagedAttentionOp where
  type_name : String
  input_element_types : List ElementType
  deriving DecidableEq, Repr

/-- Method `PagedAttention::isSupportedOperation`. The result is the returned flag
and the value left in `errorMessage`; `to_string` is `ov::element::Type::to_string`.
`get_input_element_type(i)` raises for a missing input `i`, and the `catch (...)`
returns false. -/
def PagedAttention.isSupportedOperation (to_string : ElementType → String)
    (op : PagedAttentionOp) (errorMessage : String) : Bool × String :=
  match op.input_element_types.get? PagedAttentionExecutor.ID_VCACHE,
      op.input_element_types.get? PagedAttentionExecutor.ID_KCACHE with
  | some vCachePrecision, some kCachePrecision =>
    if any_of vCachePrecision
          [ElementType.u4, ElementType.u8, ElementType.f32, ElementType.f16, ElementType.bf16] &&
        none_of kCachePrecision
          [ElementType.u4, ElementType.i8, ElementType.u8, ElementType.f16, ElementType.f32,
            ElementType.bf16] then
      (false, "PageAttn key value cache compression doesn't support key cache prec " ++
        to_string kCachePrecision ++ " value cache prec " ++ to_string vCachePrecision)
    else
      let orgInput := op.input_element_types.length
      if op.type_name = "PagedAttentionExtension" ∧
          orgInput = PagedAttentionExecutor.ID_SLIDING_WINDOW + 1 then
        (true, errorMessage)
      else (true, errorMessage)
  | _, _ => (false, errorMessage)

/-- The part of `PagedAttention::execute` that computes the dims passed to
`redefineOutputMemory`: `inputs` are the static dims of the source memories,
`pastLens` the `int32_t` data of input 5. The arithmetic is that of `size_t`. The
result is the pair of dims of output 0 and of the score output. -/
def PagedAttention.execute_output_dims (m_hasScore : Bool) (inputs : List VectorDims)
    (pastLens : List Int) : VectorDims × VectorDims :=
  let outDims := inputs.getD 0 []
  let keyDims := inputs.getD 1 []
  let valueDims := inputs.getD 2 []
  let outDims :=
    if keyDims.getD 1 0 ≠ valueDims.getD 1 0 then
      outDims.set 1 (to_size_t (outDims.getD 1 0 * valueDims.getD 1 0) / keyDims.getD 1 0)
    else outDims
  if m_hasScore then
    let pastLensDims := inputs.getD 5 []
    let len := (List.range (pastLensDims.getD 0 0)).foldl
      (fun len i => to_size_t (len + signed_to_size_t (pastLens.getD i 0))) 0
    let len := to_size_t (len + outDims.getD 0 0)
    (outDims, [len])
  else (outDims, [0])

/-- The platform queries of `PagedAttention::getRuntimePrecision`: whether the
build is for `OPENVINO_ARCH_ARM64`, and the results of `ov::with_cpu_x86_bfloat16()`
and `ov::with_cpu_x86_avx512_core_fp16()`. -/
structure Platform where
  arch_arm64 : Bool
  with_cpu_x86_bfloat16 : Bool
  with_cpu_x86_avx512_core_fp16 : Bool
  deriving DecidableEq, Repr

/-- A memory descriptor set on a port configuration: the layout whose creator
built it and the descriptor. -/
structure PortMemDesc where
  layout : LayoutType
  desc : CpuBlockedMemoryDesc
  deriving DecidableEq, Repr

/-- A `NodeConfig`: the descriptors of the input and output port configurations
(`none` until `setMemDesc`). -/
structure NodeConfig where
  inConfs : List (Option PortMemDesc)
  outConfs : List (Option PortMemDesc)
  deriving DecidableEq, Repr

/-- What `PagedAttention::initSupportedPrimitiveDescriptors` reads from and writes
to the node: the shapes and original precisions of its ports
(`getInputShapeAtPort`, `getOutputShapeAtPort`, `getOriginalInputPrecisionAtPort`;
their numbers are `getOriginalInputsNumber()` and `getOriginalOutputsNumber()`)
and the list `supportedPrimitiveDescriptors`. -/
structure PagedAttentionNode where
  inputShapes : List Shape
  inputPrecisions : List ElementType
  outputShapes : List Shape
  supportedPrimitiveDescriptors : List NodeConfig
  deriving DecidableEq, Repr

/-- Method `getInputShapeAtPort`. -/
def PagedAttentionNode.getInputShapeAtPort (node : PagedAttentionNode) (port : Nat) : Shape :=
  node.inputShapes.getD port []

/-- Method `getOutputShapeAtPort`. -/
def PagedAttentionNode.getOutputShapeAtPort (node : PagedAttentionNode) (port : Nat) : Shape :=
  node.outputShapes.getD port []

/-- Method `getOriginalInputPrecisionAtPort`. -/
def PagedAttentionNode.getOriginalInputPrecisionAtPort (node : PagedAttentionNode)
    (port : Nat) : ElementType :=
  node.inputPrecisions.getD port ElementType.dynamic

/-- Method `PagedAttention::getRuntimePrecision`. -/
def PagedAttention.getRuntimePrecision (platform : Platform) (node : PagedAttentionNode) :
    ElementType :=
  let rtPrecision := node.getOriginalInputPrecisionAtPort 0
  if platform.arch_arm64 then
    if rtPrecision = ElementType.f16 then ElementType.f16 else ElementType.f32
  else if rtPrecision = ElementType.bf16 ∧ platform.with_cpu_x86_bfloat16 = true then
    ElementType.bf16
  else if rtPrecision = ElementType.f16 ∧ platform.with_cpu_x86_avx512_core_fp16 = true then
    ElementType.f16
  else ElementType.f32

/-- Call `creatorsMap.at(LayoutType::ncsp)->createSharedDesc(precision, shape)`. -/
def ncsp_desc (precision : ElementType) (shape : Shape) : Option PortMemDesc :=
  some { layout := LayoutType.ncsp, desc := PlainFormatCreator.createDesc precision shape }

/-- Method `PagedAttention::initSupportedPrimitiveDescriptors`. The result is the
node after the call, or the failure of `CPU_NODE_ASSERT` ("The input number of
PagedAttention should be 20."). The input shapes hold one shape per input. -/
def PagedAttention.initSupportedPrimitiveDescriptors (platform : Platform)
    (node : PagedAttentionNode) : Except String PagedAttentionNode :=
  if ¬ node.supportedPrimitiveDescriptors = [] then Except.ok node
  else
    let rtPrecision := PagedAttention.getRuntimePrecision platform node
    let orgInputNumber := node.inputShapes.length
    let inConfs : List (Option PortMemDesc) := List.replicate orgInputNumber none
    let outConfs : List (Option PortMemDesc) := List.replicate node.outputShapes.length none
    let inConfs := inConfs.set PagedAttentionExecutor.ID_Q
      (ncsp_desc rtPrecision (node.getInputShapeAtPort PagedAttentionExecutor.ID_Q))
    let inConfs := inConfs.set PagedAttentionExecutor.ID_K
      (ncsp_desc rtPrecision (node.getInputShapeAtPort PagedAttentionExecutor.ID_K))
    let inConfs := inConfs.set PagedAttentionExecutor.ID_V
      (ncsp_desc rtPrecision (node.getInputShapeAtPort PagedAttentionExecutor.ID_V))
    if orgInputNumber ≠ 20 then
      Except.error "The input number of PagedAttention should be 20."
    else
      let past_key_input_mem_precision :=
        node.getOriginalInputPrecisionAtPort PagedAttentionExecutor.ID_KCACHE
      let past_value_input_mem_precision :=
        node.getOriginalInputPrecisionAtPort PagedAttentionExecutor.ID_VCACHE
      let inConfs := inConfs.set PagedAttentionExecutor.ID_KCACHE
        (ncsp_desc past_key_input_mem_precision
          (node.getInputShapeAtPort PagedAttentionExecutor.ID_KCACHE))
      let inConfs := inConfs.set PagedAttentionExecutor.ID_VCACHE
        (ncsp_desc past_value_input_mem_precision
          (node.getInputShapeAtPort PagedAttentionExecutor.ID_VCACHE))
      let inConfs := inConfs.set PagedAttentionExecutor.ID_PAST_LENS
        (ncsp_desc ElementType.i32 (node.getInputShapeAtPort PagedAttentionExecutor.ID_PAST_LENS))
      let inConfs := inConfs.set PagedAttentionExecutor.ID_SUBSEQUENCE_BEGINS
        (ncsp_desc ElementType.i32
          (node.getInputShapeAtPort PagedAttentionExecutor.ID_SUBSEQUENCE_BEGINS))
      let inConfs := inConfs.set PagedAttentionExecutor.ID_BLOCK_INDICES
        (ncsp_desc ElementType.i32
          (node.getInputShapeAtPort PagedAttentionExecutor.ID_BLOCK_INDICES))
      let inConfs := inConfs.set PagedAttentionExecutor.ID_BLOCK_INDICES_BEGINS
        (ncsp_desc ElementType.i32
          (node.getInputShapeAtPort PagedAttentionExecutor.ID_BLOCK_INDICES_BEGINS))
      let inConfs := inConfs.set PagedAttentionExecutor.ID_SCALE
        (ncsp_desc ElementType.f32 (node.getInputShapeAtPort PagedAttentionExecutor.ID_SCALE))
      let inConfs := inConfs.set PagedAttentionExecutor.ID_SLIDING_WINDOW
        (ncsp_desc ElementType.i32
          (node.getInputShapeAtPort PagedAttentionExecutor.ID_SLIDING_WINDOW))
      let inConfs := inConfs.set PagedAttentionExecutor.ID_ALIBI_SLOPES
        (ncsp_desc ElementType.f32
          (node.getInputShapeAtPort PagedAttentionExecutor.ID_ALIBI_SLOPES))
      let inConfs := inConfs.set PagedAttentionExecutor.ID_MAX_CONTEXT_LEN
        (ncsp_desc ElementType.i32
          (node.getInputShapeAtPort PagedAttentionExecutor.ID_MAX_CONTEXT_LEN))
      let outConfs := outConfs.set 0 (ncsp_desc rtPrecision (node.getOutputShapeAtPort 0))
      let outConfs := outConfs.set 1 (ncsp_desc ElementType.f32 (node.getOutputShapeAtPort 1))
      let inConfs := inConfs.set PagedAttentionExecutor.ID_SCORE_AGGREGATION_WINDOW
        (ncsp_desc ElementType.i32
          (node.getInputShapeAtPort PagedAttentionExecutor.ID_SCORE_AGGREGATION_WINDOW))
      let inConfs := inConfs.set PagedAttentionExecutor.ID_ROTATED_BLOCK_INDICES
        (ncsp_desc ElementType.i32
          (node.getInputShapeAtPort PagedAttentionExecutor.ID_ROTATED_BLOCK_INDICES))
      let inConfs := inConfs.set PagedAttentionExecutor.ID_ROTATION_DELTAS
        (ncsp_desc ElementType.i32
          (node.getInputShapeAtPort PagedAttentionExecutor.ID_ROTATION_DELTAS))
      let inConfs := inConfs.set PagedAttentionExecutor.ID_ROTATION_TRIG_LUT
        (ncsp_desc ElementType.f32
          (node.getInputShapeAtPort PagedAttentionExecutor.ID_ROTATION_TRIG_LUT))
      let inConfs := inConfs.set PagedAttentionExecutor.ID_XATTENTION_THRESHOLD
        (ncsp_desc ElementType.f32
          (node.getInputShapeAtPort PagedAttentionExecutor.ID_XATTENTION_THRESHOLD))
      let inConfs := inConfs.set PagedAttentionExecutor.ID_XATTENTION_BLOCK_SIZE
        (ncsp_desc ElementType.i32
          (node.getInputShapeAtPort PagedAttentionExecutor.ID_XATTENTION_BLOCK_SIZE))
      let inConfs := inConfs.set PagedAttentionExecutor.ID_XATTENTION_STRIDE
        (ncsp_desc ElementType.i32
          (node.getInputShapeAtPort PagedAttentionExecutor.ID_XATTENTION_BLOCK_SIZE))
      Except.ok { node with
        supportedPrimitiveDescriptors := node.supportedPrimitiveDescriptors ++
          [{ inConfs := inConfs, outConfs := outConfs }] }

/-- A node with twenty inputs, every input shape `[]` except that of
`xattention_stride`, which is `[1]`. -/
def stride_vector_node : PagedAttentionNode :=
  { inputShapes := List.replicate 19 [] ++ [[1]],
    inputPrecisions := List.replicate 20 ElementType.f32,
    outputShapes := [[], []],
    supportedPrimitiveDescriptors := [] }

end node
end intel_cpu
end ov

namespace ov
namespace pass

/-! ## Conversion of the paged-attention cache inputs
(`common_optimizations/convert_pagedattn_inputs.cpp`) -/

/-- Modelled from the spec: `ov::Any` is declared outside the sources. The rt_info
fields "communicate head counts": an entry holds a `size_t`, or a value of another
type, or, when default-constructed, nothing. -/
inductive Any where
  | empty
  | size_t (value : Nat)
  | other (text : String)
  deriving DecidableEq, Repr

/-- Modelled from the spec: `Any::as<size_t>()`, declared outside the sources, gives
the `size_t` an entry holds and raises for an entry that holds none. -/
def Any.as_size_t : Any → Except String Nat
  | Any.size_t value => Except.ok value
  | Any.empty => Except.error "Any was not initialized"
  | Any.other _ => Except.error "Bad cast"

/-- The rt_info of a node (`ov::RTMap`, a `std::map` from names to `ov::Any`), as
the list of its entries. -/
abbrev RTMap := List (String × Any)

/-- Method `std::map::count`. -/
def RTMap.count (rt_info : RTMap) (key : String) : Nat :=
  if rt_info.any (fun entry => decide (entry.1 = key)) then 1 else 0

/-- Method `std::map::operator[]`: the entry under `key`, inserted
default-constructed when the map has none. The result is the entry and the map
after the call. -/
def RTMap.subscript (rt_info : RTMap) (key : String) : Any × RTMap :=
  match rt_info.lookup key with
  | some value => (value, rt_info)
  | none => (Any.empty, rt_info ++ [(key, Any.empty)])

/-- A `PartialShape` of static rank, by its dimensions; the dimension -1 is
dynamic. -/
abbrev PartialShape := List Int

/-- What the callback reads and writes of a `v0::Parameter`: its element type and
its partial shape. -/
structure Parameter where
  element_type : ElementType
  partial_shape : PartialShape
  deriving DecidableEq, Repr

/-- The fields of `ConvertPagedAttnInputs::KVCacheConfig` the callback reads. -/
structure KVCacheConfig where
  keyCachePrecision : ElementType
  valueCachePrecision : ElementType
  inferencePrecision : ElementType
  keyCacheBlockSize : Nat
  valueCacheBlockSize : Nat
  keyCacheGroupSize : Nat
  valueCacheGroupSize : Nat
  keyCacheQuantBychannel : Bool
  valueCacheQuantBychannel : Bool
  keyCacheDimOrder : List Nat
  valueCacheDimOrder : List Nat
  deriving DecidableEq, Repr

/-- The functions the callback calls whose definitions are not among the sources.

* `m_update_shape_func`: the `UpdateShapeFunc` given to the pass, called with the
  precision, `bychannel`, `group_num`, `_head_size` and `_block_size`; the result
  is the pair of `_head_size` and `_block_size` after the call;
* `validate_and_infer_types`: `v0::Parameter::validate_and_infer_types`. -/
structure CallbackExternals where
  m_update_shape_func : ElementType → Bool → Nat → Int → Int → Int × Int
  validate_and_infer_types : Parameter → Parameter

/-- The part of the graph the callback acts on: the rt_info of the matched
`PagedAttentionExtension` node and its key and value cache Parameters (inputs 3
and 4). -/
structure MatchedGraph where
  rt_info : RTMap
  key_cache : Parameter
  value_cache : Parameter
  deriving DecidableEq, Repr

/-- Lambda `format_cache_precision` of the callback. -/
def format_cache_precision (cache_precision infer_precision : ElementType) : ElementType :=
  if cache_precision = ElementType.f16 ∧ infer_precision = ElementType.bf16 then infer_precision
  else cache_precision

/-- Lambda `init_cache_shape` of the callback; the arithmetic on the locals is that
of `ov::Dimension::value_type`, an `int64_t`. -/
def init_cache_shape (E : CallbackExternals) (head_nums head_size block_size : Nat)
    (precision : ElementType) (group_size : Nat) (bychannel : Bool) (orders : List Nat) :
    Except String PartialShape :=
  let _block_size := size_t_to_int64 block_size
  let _head_nums := size_t_to_int64 head_nums
  let _head_size := size_t_to_int64 head_size
  let _group_size := size_t_to_int64 group_size
  let _group_size := if _group_size ≠ 0 then _group_size else _head_size
  if bychannel = false ∧ Int.tmod _head_size _group_size ≠ 0 then
    Except.error "cache head_size cannot be divided by group_size"
  else
    let group_num := (Int.tdiv _head_size _group_size % 2 ^ 64).toNat
    let updated := E.m_update_shape_func precision bychannel group_num _head_size _block_size
    let _head_size := updated.1
    let _block_size := updated.2
    let block_shape : PartialShape := List.replicate 4 (-1)
    let block_shape := block_shape.set (orders.getD 0 0) (-1)
    let block_shape := block_shape.set (orders.getD 1 0) _head_nums
    let block_shape := block_shape.set (orders.getD 2 0) _block_size
    let block_shape := block_shape.set (orders.getD 3 0) _head_size
    Except.ok block_shape

/-- The true branch of the callback, entered when the four `count` tests pass. The
result is the graph as the branch leaves it and either the two cache shapes or the
exception raised. Every `get_rt_info()[...]` goes through `RTMap.subscript`. -/
def compute_cache_shapes (E : CallbackExternals) (m_config : KVCacheConfig)
    (key_cache_precision value_cache_precision : ElementType) (g : MatchedGraph) :
    MatchedGraph × Except String (PartialShape × PartialShape) :=
  let r1 := g.rt_info.subscript "num_k_heads"
  match r1.1.as_size_t with
  | Except.error e => ({ g with rt_info := r1.2 }, Except.error e)
  | Except.ok num_k_heads =>
    let r2 := r1.2.subscript "k_head_size"
    match r2.1.as_size_t with
    | Except.error e => ({ g with rt_info := r2.2 }, Except.error e)
    | Except.ok k_head_size =>
      match init_cache_shape E num_k_heads k_head_size m_config.keyCacheBlockSize
          key_cache_precision m_config.keyCacheGroupSize m_config.keyCacheQuantBychannel
          m_config.keyCacheDimOrder with
      | Except.error e => ({ g with rt_info := r2.2 }, Except.error e)
      | Except.ok key_cache_shape =>
        let r3 := r2.2.subscript "num_v_heads"
        match r3.1.as_size_t with
        | Except.error e => ({ g with rt_info := r3.2 }, Except.error e)
        | Except.ok num_v_heads =>
          let r4 := r3.2.subscript "v_head_size"
          match r4.1.as_size_t with
          | Except.error e => ({ g with rt_info := r4.2 }, Except.error e)
          | Except.ok v_head_size =>
            match init_cache_shape E num_v_heads v_head_size m_config.valueCacheBlockSize
                value_cache_precision m_config.valueCacheGroupSize
                m_config.valueCacheQuantBychannel m_config.valueCacheDimOrder with
            | Except.error e => ({ g with rt_info := r4.2 }, Except.error e)
            | Except.ok value_cache_shape =>
              ({ g with rt_info := r4.2 }, Except.ok (key_cache_shape, value_cache_shape))

/-- The matcher callback of `ConvertPagedAttnInputs`. The result is the graph as the
callback leaves it and either the returned status or the exception raised. -/
def ConvertPagedAttnInputs.callback (E : CallbackExternals) (m_config : KVCacheConfig)
    (g : MatchedGraph) : MatchedGraph × Except String Bool :=
  let key_cache_precision :=
    format_cache_precision m_config.keyCachePrecision m_config.inferencePrecision
  let value_cache_precision :=
    format_cache_precision m_config.valueCachePrecision m_config.inferencePrecision
  let g := { g with key_cache := { g.key_cache with element_type := key_cache_precision },
                    value_cache := { g.value_cache with element_type := value_cache_precision } }
  if g.rt_info.count "num_k_heads" ≠ 0 ∧ g.rt_info.count "k_head_size" ≠ 0 ∧
      g.rt_info.count "num_v_heads" ≠ 0 ∧ g.rt_info.count "num_v_heads" ≠ 0 then
    match compute_cache_shapes E m_config key_cache_precision value_cache_precision g with
    | (g, Except.error e) => (g, Except.error e)
    | (g, Except.ok shapes) =>
      let g := { g with key_cache := { g.key_cache with partial_shape := shapes.1 },
                        value_cache := { g.value_cache with partial_shape := shapes.2 } }
      ({ g with key_cache := E.validate_and_infer_types g.key_cache,
                value_cache := E.validate_and_infer_types g.value_cache }, Except.ok true)
  else
    ({ g with key_cache := E.validate_and_infer_types g.key_cache,
              value_cache := E.validate_and_infer_types g.value_cache }, Except.ok false)

/-- A shape function that leaves the head size and block size as they are, and a
validation that leaves a Parameter as it is. -/
def plain_callback_externals : CallbackExternals :=
  { m_update_shape_func := fun _ _ _ head_size block_size => (head_size, block_size),
    validate_and_infer_types := fun param => param }

/-- A cache configuration: f16 caches and inference, blocks of 32, no groups. -/
def sample_cache_config : KVCacheConfig :=
  { keyCachePrecision := ElementType.f16, valueCachePrecision := ElementType.f16,
    inferencePrecision := ElementType.f16, keyCacheBlockSize := 32, valueCacheBlockSize := 32,
    keyCacheGroupSize := 0, valueCacheGroupSize := 0, keyCacheQuantBychannel := false,
    valueCacheQuantBychannel := false, keyCacheDimOrder := [0, 1, 2, 3],
    valueCacheDimOrder := [0, 1, 2, 3] }

/-- A matched node whose rt_info has `num_k_heads`, `k_head_size` and `num_v_heads`
but no `v_head_size`; the cache Parameters have dynamic dimensions. -/
def graph_without_v_head_size : MatchedGraph :=
  { rt_info := [("num_k_heads", Any.size_t 8), ("k_head_size", Any.size_t 64),
      ("num_v_heads", Any.size_t 8)],
    key_cache := { element_type := ElementType.f16, partial_shape := [-1, -1, -1, -1] },
    value_cache := { element_type := ElementType.f16, partial_shape := [-1, -1, -1, -1] } }

end pass
end ov

namespace ov
namespace snippets
namespace lowered
namespace pass

/-! ## Loop marking (`mark_loops.hpp`) -/

/-- Modelled from the spec: an expression as `MarkLoops` reads it, with the layout
and the (subtensor) shape of its ports and the positions, in the range, of the
expressions that consume its output. -/
structure MarkedExpression where
  layout : List Nat
  shape : List Nat
  consumers : List Nat
  deriving DecidableEq, Repr

/-- Modelled from the spec: a marked loop, with its loop ID, the positions of the
first and last expression of the contiguous range it wraps, its work amount
(iteration count), its increment and the tail left over by the increment. -/
structure MarkedLoop where
  id : Nat
  first : Nat
  last : Nat
  work_amount : Nat
  increment : Nat
  tail : Nat
  deriving DecidableEq, Repr

/-- Modelled from the spec: the test by which `MarkLoops` keeps the expression
`next`, at position `pos + 1`, in the loop of the expression `current` at position
`pos`: "their port layouts and subtensor shapes are identical" and "the consumer
of the expression is explicitly after this expression". -/
def MarkLoops.same_loop (pos : Nat) (current next : MarkedExpression) : Bool :=
  decide (current.layout = next.layout) && decide (current.shape = next.shape) &&
    current.consumers.contains (pos + 1)

/-- Modelled from the spec: closing a loop records "its work amount (iteration
count) and increment (derived from vector size, with scalar remainder handled by
a smaller tail increment)": for shape `[1, 128]` and vector size 8 the work amount
is 128, the increment 8 and the tail `128 % 8`. -/
def MarkLoops.close_loop (m_vector_size id first last : Nat) (e : MarkedExpression) :
    MarkedLoop :=
  { id := id, first := first, last := last, work_amount := e.shape.getLastD 1,
    increment := m_vector_size, tail := e.shape.getLastD 1 % m_vector_size }

/-- Modelled from the spec: the walk of `MarkLoops::run`, whose definition
(`mark_loops.cpp`) is not among the sources, with a loop open that started at
position `first` and whose last expression so far is `current`, at position `pos`.
"On a layout/shape mismatch or a consumer appearing out of order, the current loop
is closed and a new candidate loop starts" with "a fresh loop ID". -/
def MarkLoops.walk (m_vector_size : Nat) :
    Nat → Nat → Nat → MarkedExpression → List MarkedExpression → List MarkedLoop
  | id, first, pos, current, [] => [MarkLoops.close_loop m_vector_size id first pos current]
  | id, first, pos, current, next :: rest =>
    if MarkLoops.same_loop pos current next then
      MarkLoops.walk m_vector_size id first (pos + 1) next rest
    else
      MarkLoops.close_loop m_vector_size id first pos current ::
        MarkLoops.walk m_vector_size (id + 1) (pos + 1) (pos + 1) next rest

/-- Modelled from the spec: `MarkLoops::run` on a range of expressions "walks the
range left to right" and returns the loops it marked. -/
def MarkLoops.run (m_vector_size : Nat) : List MarkedExpression → List MarkedLoop
  | [] => []
  | e :: rest => MarkLoops.walk m_vector_size 0 0 0 e rest

/-- A chain of expressions from position `pos` on: every expression but the last is
consumed by the expression right after it. -/
def is_chain : Nat → List MarkedExpression → Prop
  | _, [] => True
  | _, [_] => True
  | pos, current :: next :: rest => (pos + 1) ∈ current.consumers ∧ is_chain (pos + 1) (next :: rest)

/-- An elementwise expression of layout `[0, 1]` and shape `[1, n]`, consumed at the
given positions. -/
def eltwise_expression (n : Nat) (consumers : List Nat) : MarkedExpression :=
  { layout := [0, 1], shape := [1, n], consumers := consumers }

end pass
end lowered
end snippets
end ov

namespace ov
namespace intel_cpu
namespace node

/-! ## Squeeze and unsqueeze shape inference (`shape_inference/custom/reshape.cpp`) -/

/-- Status values of `ShapeInferStatus`. -/
inductive ShapeInferStatus where
  | success | skip
  deriving DecidableEq, Repr

/-- The `Result` of a shape inference: the inferred dims and the status. -/
structure Result where
  dims : List VectorDims
  status : ShapeInferStatus
  deriving DecidableEq, Repr

/-- The memory of a pattern input (`data_dependency.at(...)`): its static dims
(`getStaticDims()`) and the `outputPatternSize` values `get_raw_data_as<int64_t>`
reads from it. -/
structure PatternMemory where
  dims : VectorDims
  data : List Int
  deriving DecidableEq, Repr

/-- The value of `outPattern[i]` after the first statement of the first loop of
`SqueezeShapeInfer::infer`: a negative value is replaced by
`inputShapeSize + outPattern[i]`. -/
def squeeze_axis (inputShapeSize : Nat) (a : Int) : Int :=
  if a < 0 then (inputShapeSize : Int) + a else a

/-- One iteration of the first loop of `SqueezeShapeInfer::infer`, for the pattern
value `a`. -/
def squeeze_mask_step (inputShape : VectorDims) (removeMask : List Bool) (a : Int) : List Bool :=
  if 0 ≤ squeeze_axis inputShape.length a ∧ squeeze_axis inputShape.length a < inputShape.length ∧
      inputShape.getD (squeeze_axis inputShape.length a).toNat 0 = 1 then
    removeMask.set (squeeze_axis inputShape.length a).toNat true
  else removeMask

/-- The second loop of `SqueezeShapeInfer::infer`: the dims whose `removeMask` entry
is false are pushed, in order. The mask has one entry per dim. -/
def push_unmasked : VectorDims → List Bool → VectorDims
  | d :: ds, m :: ms => if m then push_unmasked ds ms else d :: push_unmasked ds ms
  | _, _ => []

/-- The loops of `SqueezeShapeInfer::infer` taken without a usable pattern: the dims
different from 1 are pushed, in order. -/
def push_non_unit (inputShape : VectorDims) : VectorDims :=
  inputShape.filter (fun d => decide (d ≠ 1))

/-- Method `SqueezeShapeInfer::infer`. `inputShape` is `input_shapes[SQUEEZE_SRC]`
and `pattern` the entry of `data_dependency` for `SQUEEZE_PATTERN`, `none` when
there is no such entry. -/
def SqueezeShapeInfer.infer (inputShape : VectorDims) (pattern : Option PatternMemory) : Result :=
  match pattern with
  | some memPtr =>
    if memPtr.dims ≠ [] then
      let removeMask := memPtr.data.foldl (squeeze_mask_step inputShape)
        (List.replicate inputShape.length false)
      { dims := [push_unmasked inputShape removeMask], status := ShapeInferStatus.success }
    else { dims := [push_non_unit inputShape], status := ShapeInferStatus.success }
  | none => { dims := [push_non_unit inputShape], status := ShapeInferStatus.success }

/-- The value of `outPattern[i]` after the first statement of the first loop of
`UnsqueezeShapeInfer::infer`: a negative value is replaced by
`outputShapeSize + outPattern[i]`. -/
def unsqueeze_axis (outputShapeSize : Nat) (a : Int) : Int :=
  if a < 0 then (outputShapeSize : Int) + a else a

/-- The first loop of `UnsqueezeShapeInfer::infer` over the remaining pattern values:
every value in range sets a 1 in `outputShape`; a value out of range sets
`existError` and breaks, which is the result `none`. -/
def mark_unsqueeze_axes (outputShapeSize : Nat) : List Int → VectorDims → Option VectorDims
  | [], outputShape => some outputShape
  | a :: rest, outputShape =>
    if 0 ≤ unsqueeze_axis outputShapeSize a ∧ unsqueeze_axis outputShapeSize a < outputShapeSize then
      mark_unsqueeze_axes outputShapeSize rest
        (outputShape.set (unsqueeze_axis outputShapeSize a).toNat 1)
    else none

/-- The second loop of `UnsqueezeShapeInfer::infer` over the remaining entries of
`outputShape`, with the counter `y`: an entry 0 takes `inputShape[y]`; when the
input has no dim left the loop sets `existError` and breaks, which is the result
`none`. -/
def fill_input_dims (inputShape : VectorDims) : VectorDims → Nat → Option VectorDims
  | [], _ => some []
  | d :: rest, y =>
    if d = 0 then
      if y < inputShape.length then
        (fill_input_dims inputShape rest (y + 1)).map (fun filled => inputShape.getD y 0 :: filled)
      else none
    else (fill_input_dims inputShape rest y).map (fun filled => d :: filled)

/-- The failure of the `OPENVINO_ASSERT` of `UnsqueezeShapeInfer::infer`:
"[cpu]unsqueeze: the shape of input data ... conflicts with the unsqueeze pattern
...". -/
inductive UnsqueezeError where
  | conflicts (inputShape : VectorDims) (originOutPattern : List Int)
  deriving DecidableEq, Repr

/-- Method `UnsqueezeShapeInfer::infer`. `originOutPattern` holds the values read
from the pattern memory; `unordered_set_order` gives the order in which the
`std::unordered_set` built from them is iterated, each distinct value once. -/
def UnsqueezeShapeInfer.infer (unordered_set_order : List Int → List Int)
    (inputShape : VectorDims) (originOutPattern : List Int) :
    Except UnsqueezeError VectorDims :=
  let outPattern := unordered_set_order originOutPattern
  let outputPatternSize := outPattern.length
  let outputShapeSize := inputShape.length + outputPatternSize
  match mark_unsqueeze_axes outputShapeSize outPattern (List.replicate outputShapeSize 0) with
  | none => Except.error (UnsqueezeError.conflicts inputShape originOutPattern)
  | some outputShape =>
    match fill_input_dims inputShape outputShape 0 with
    | none => Except.error (UnsqueezeError.conflicts inputShape originOutPattern)
    | some outputShape => Except.ok outputShape

/-- The shape `shape` with the positions `i` for which `removed i` holds taken out,
the first dim being at position `start`; the other dims keep their order. -/
def remove_positions_from (removed : Nat → Bool) : Nat → VectorDims → VectorDims
  | _, [] => []
  | start, d :: ds =>
    if removed start then remove_positions_from removed (start + 1) ds
    else d :: remove_positions_from removed (start + 1) ds

/-- The shape `shape` with the positions `i` for which `removed i` holds taken out;
the other dims keep their order. -/
def remove_positions (removed : Nat → Bool) (shape : VectorDims) : VectorDims :=
  remove_positions_from removed 0 shape

end node
end intel_cpu
end ov

namespace ov
namespace intel_cpu
namespace node

/-! ## The loops of `ReshapeShapeInfer::infer`, iteration by iteration -/

/-- The initial values of the locals of the first loop of `ReshapeShapeInfer::infer`. -/
def initial_scan (outputPatternSize : Nat) : PatternScan :=
  { outputShape := List.replicate outputPatternSize 0, outputProduct := 1,
    minusOneIdx := -1, minusOneCount := 0 }

/-- The locals of `ReshapeShapeInfer::infer` after `i` iterations of its first loop. -/
def scan_pattern (m_specialZero : Bool) (inputShape : VectorDims) (outPattern : List Int)
    (i : Nat) : PatternScan :=
  (List.range i).foldl (scan_pattern_step m_specialZero inputShape outPattern)
    (initial_scan outPattern.length)

/-- The test of the first branch of the first loop of `ReshapeShapeInfer::infer`: the
pattern entry `i` is 0, `special_zero` is set and `i` is below the input rank, so the
input dim `i` is copied. -/
def is_copied (m_specialZero : Bool) (inputShape : VectorDims) (outPattern : List Int)
    (i : Nat) : Prop :=
  outPattern.getD i 0 = 0 ∧ m_specialZero = true ∧ i < inputShape.length

instance (m_specialZero : Bool) (inputShape : VectorDims) (outPattern : List Int) (i : Nat) :
    Decidable (is_copied m_specialZero inputShape outPattern i) := by
  unfold is_copied
  exact inferInstance

/-- The entry the first loop of `ReshapeShapeInfer::infer` leaves at position `i` of
`outputShape`: the copied input dim, 0 for a pattern entry -1, the pattern entry as a
`size_t` otherwise. -/
def scanned_dim (m_specialZero : Bool) (inputShape : VectorDims) (outPattern : List Int)
    (i : Nat) : Nat :=
  if is_copied m_specialZero inputShape outPattern i then inputShape.getD i 0
  else if outPattern.getD i 0 = -1 then 0
  else signed_to_size_t (outPattern.getD i 0)

/-- The factor iteration `i` of the first loop of `ReshapeShapeInfer::infer`
contributes to `outputProduct`: 1 for a copied dim and for a pattern entry -1, the
pattern entry as a `size_t` otherwise. -/
def scanned_factor (m_specialZero : Bool) (inputShape : VectorDims) (outPattern : List Int)
    (i : Nat) : Nat :=
  if is_copied m_specialZero inputShape outPattern i then 1
  else if outPattern.getD i 0 = -1 then 1
  else signed_to_size_t (outPattern.getD i 0)

/-- The factor iteration `i` of the second loop of `ReshapeShapeInfer::infer`
contributes to `inputProduct`: 1 for a position the loop skips, the input dim
otherwise. -/
def input_factor (m_specialZero : Bool) (inputShape : VectorDims) (outPattern : List Int)
    (i : Nat) : Nat :=
  if i < outPattern.length ∧ outPattern.getD i 0 = 0 ∧ m_specialZero = true then 1
  else inputShape.getD i 0

end node
end intel_cpu
end ov

namespace ov
namespace intel_cpu
namespace node

/-- The value of `outputShape` at the `OPENVINO_ASSERT` of `ReshapeShapeInfer::infer`:
the result of the first loop, where the entry at `minusOneIdx`, when there is one, is
written from the `inputProduct` of the second loop and the `outputProduct` of the
first. -/
def checked_output_shape (m_specialZero : Bool) (inputShape : VectorDims)
    (outPattern : List Int) : VectorDims :=
  let st := scan_pattern m_specialZero inputShape outPattern outPattern.length
  let inputProduct := (List.range inputShape.length).foldl
    (input_product_step m_specialZero inputShape outPattern) 1
  if 0 ≤ st.minusOneIdx then
    if st.outputProduct ≠ 0 then
      st.outputShape.set st.minusOneIdx.toNat (inputProduct / st.outputProduct)
    else st.outputShape.set st.minusOneIdx.toNat 0
  else st.outputShape

end node
end intel_cpu
end ov

namespace ov
namespace snippets
namespace pass

/-! ## Sample transpose for evaluation -/

/-- An environment for evaluation: `TransposeDecomposition` accepts every order and
`FuseTransposeBrgemm` the order `[0, 2, 1, 3]` only. -/
def transpose_externals : Externals :=
  { is_supported_fq := fun _ => false,
    decomposition_is_supported_transpose_order := fun _ => true,
    brgemm_is_supported_transpose_order := fun order => decide (order = [0, 2, 1, 3]),
    check_broadcast := fun _ => true }

/-- The data input of `transpose_after_subgraph`: output 1 of a Subgraph that is not
`Completed`, whose body results are fed by a node that is no MatMul and by a MatMul. -/
def transpose_data_input : Input :=
  { tensor := { rank := some 4, element_type := ElementType.f32 },
    source := Op.Subgraph SnippetsSubgraphType.NotSet [false, true], source_index := 1 }

/-- The order input of `transpose_after_subgraph`: a Constant of shape `[4]` that holds
`order`. -/
def transpose_order_input (order : List Int) : Input :=
  { tensor := { rank := some 1, element_type := ElementType.i32 },
    source := Op.Constant [4] order, source_index := 0 }

/-- Output 0 of `transpose_after_subgraph`, consumed by an Add. -/
def transpose_output : Output :=
  { tensor := { rank := some 4, element_type := ElementType.f32 },
    target_inputs := [Op.Simple NodeType.Add] }

/-- A Transpose with order `order` on output 1 of a Subgraph that is not `Completed`,
consumed by an Add. -/
def transpose_after_subgraph (order : List Int) : Node :=
  { op := Op.Simple NodeType.Transpose,
    inputs := [transpose_data_input, transpose_order_input order],
    outputs := [transpose_output],
    control_dependencies := [] }

end pass
end snippets
end ov

/-! # Properties -/

namespace ov
namespace snippets
namespace pass

/-! ## Tokenization predicates -/

/-- A node accepted by `has_supported_in_out` has only static ranks on its inputs
and outputs. -/
theorem has_supported_in_out_static (n : Node) (h : has_supported_in_out n = true) :
    (∀ inp ∈ n.inputs, inp.tensor.rank.is_static = true) ∧
      (∀ out ∈ n.outputs, out.tensor.rank.is_static = true) := by
  unfold has_supported_in_out at h
  split at h
  · simp at h
  · simpa [supported, List.all_eq_true] using h

/-- Claim C1: `AppropriateForSubgraph` holds exactly when the four conditions hold:
`is_supported_op`, `has_supported_in_out`, no control dependencies and
`check_broadcast`. A node with a control dependency is never appropriate, and an
appropriate node has only static ranks on its inputs and outputs. -/
theorem AppropriateForSubgraph_iff_four_conditions (E : Externals) (n : Node) :
    (AppropriateForSubgraph E n = true ↔
      is_supported_op E n = true ∧ has_supported_in_out n = true ∧
        n.control_dependencies = [] ∧ E.check_broadcast n = true) ∧
    (n.control_dependencies ≠ [] → AppropriateForSubgraph E n = false) ∧
    (AppropriateForSubgraph E n = true →
      (∀ inp ∈ n.inputs, inp.tensor.rank.is_static = true) ∧
      (∀ out ∈ n.outputs, out.tensor.rank.is_static = true)) := by
  have hiff : AppropriateForSubgraph E n = true ↔
      is_supported_op E n = true ∧ has_supported_in_out n = true ∧
        n.control_dependencies = [] ∧ E.check_broadcast n = true := by
    simp [AppropriateForSubgraph, and_assoc]
  refine ⟨hiff, ?_, ?_⟩
  · intro hdeps
    cases h : AppropriateForSubgraph E n with
    | false => rfl
    | true => exact absurd (hiff.mp h).2.2.1 hdeps
  · intro h
    exact has_supported_in_out_static n (hiff.mp h).2.1

/-- Evaluation of C1: a `Relu` on a rank-4 tensor is appropriate, and the same node
with one control dependency is not. -/
theorem AppropriateForSubgraph_iff_four_conditions_witness :
    AppropriateForSubgraph sample_externals (relu_node (some 4) []) = true ∧
    AppropriateForSubgraph sample_externals
      (relu_node (some 4) [Op.Simple NodeType.Other]) = false :=
  ⟨(AppropriateForSubgraph_iff_four_conditions sample_externals (relu_node (some 4) [])).1.mpr
      ⟨by decide, by decide, rfl, rfl⟩,
    (AppropriateForSubgraph_iff_four_conditions sample_externals
      (relu_node (some 4) [Op.Simple NodeType.Other])).2.1 (by decide)⟩

/-- Claim C2: a node with an input or output tensor of dynamic rank is rejected by
`has_supported_in_out`, and a node rejected by `has_supported_in_out` is not
appropriate for a subgraph, whatever the other predicates say. -/
theorem dynamic_rank_never_appropriate (n : Node) :
    (((∃ inp ∈ n.inputs, inp.tensor.rank.is_dynamic = true) ∨
        (∃ out ∈ n.outputs, out.tensor.rank.is_dynamic = true)) →
      has_supported_in_out n = false) ∧
    (has_supported_in_out n = false → ∀ E : Externals, AppropriateForSubgraph E n = false) := by
  constructor
  · intro h
    cases hs : has_supported_in_out n with
    | false => rfl
    | true =>
      obtain ⟨hin, hout⟩ := has_supported_in_out_static n hs
      rcases h with ⟨inp, hmem, hd⟩ | ⟨out, hmem, hd⟩
      · have := hin inp hmem
        cases hr : inp.tensor.rank <;> simp [hr, Rank.is_dynamic, Rank.is_static] at hd this
      · have := hout out hmem
        cases hr : out.tensor.rank <;> simp [hr, Rank.is_dynamic, Rank.is_static] at hd this
  · intro h E
    simp [AppropriateForSubgraph, h]

/-- Evaluation of C2: a `Relu`, a supported operation, on a tensor of dynamic rank
is rejected by `has_supported_in_out` and is not appropriate. -/
theorem dynamic_rank_never_appropriate_witness :
    is_supported_op sample_externals (relu_node none []) = true ∧
    has_supported_in_out (relu_node none []) = false ∧
    AppropriateForSubgraph sample_externals (relu_node none []) = false :=
  ⟨by decide,
    (dynamic_rank_never_appropriate (relu_node none [])).1
      (Or.inl ⟨plain_input none ElementType.f32, by decide, by decide⟩),
    (dynamic_rank_never_appropriate (relu_node none [])).2 (by decide) sample_externals⟩

/-- The element-type test of `is_supported_matmul`, as a statement about the two
input types. -/
theorem supported_precisions_iff (t0 t1 : ElementType) :
    (utils.all_of ElementType.f32 [t0, t1] || utils.all_of ElementType.bf16 [t0, t1] ||
      utils.any_of t0 [ElementType.i8, ElementType.u8] && decide (t1 = ElementType.i8)) = true ↔
      ((t0 = ElementType.f32 ∧ t1 = ElementType.f32) ∨
       (t0 = ElementType.bf16 ∧ t1 = ElementType.bf16) ∨
       ((t0 = ElementType.i8 ∨ t0 = ElementType.u8) ∧ t1 = ElementType.i8)) := by
  cases t0 <;> cases t1 <;> decide

/-- Claim C3: `is_supported_matmul` holds exactly when the node is an `opset1`
`MatMul`, its output rank is static and equal to 4, and its input element types
are (f32, f32), (bf16, bf16) or (i8 or u8, i8). A `MatMul` with f32/f32 inputs is
accepted with an output of rank 4 and rejected with an output of rank 3. -/
theorem is_supported_matmul_iff :
    (∀ n : Node, is_supported_matmul n = true ↔
      n.op.type_info = NodeType.MatMul ∧
      (∃ out0 outs, n.outputs = out0 :: outs ∧ out0.tensor.rank = some 4) ∧
      (∃ in0 in1 ins, n.inputs = in0 :: in1 :: ins ∧
        ((in0.tensor.element_type = ElementType.f32 ∧ in1.tensor.element_type = ElementType.f32) ∨
         (in0.tensor.element_type = ElementType.bf16 ∧
            in1.tensor.element_type = ElementType.bf16) ∨
         ((in0.tensor.element_type = ElementType.i8 ∨ in0.tensor.element_type = ElementType.u8) ∧
            in1.tensor.element_type = ElementType.i8)))) ∧
    is_supported_matmul (matmul_f32_node (some 4)) = true ∧
    is_supported_matmul (matmul_f32_node (some 3)) = false := by
  refine ⟨?_, by decide, by decide⟩
  intro n
  obtain ⟨op, inputs, outputs, deps⟩ := n
  rcases outputs with _ | ⟨out0, outs⟩
  · simp [is_supported_matmul]
  · by_cases hm : op.type_info = NodeType.MatMul
    · by_cases h4 : out0.tensor.rank = some 4
      · rcases inputs with _ | ⟨in0, _ | ⟨in1, ins⟩⟩
        · simp [is_supported_matmul]
        · simp [is_supported_matmul]
        · have key := supported_precisions_iff in0.tensor.element_type in1.tensor.element_type
          have e : is_supported_matmul ⟨op, in0 :: in1 :: ins, out0 :: outs, deps⟩ =
              (utils.all_of ElementType.f32 [in0.tensor.element_type, in1.tensor.element_type] ||
                utils.all_of ElementType.bf16 [in0.tensor.element_type, in1.tensor.element_type] ||
                utils.any_of in0.tensor.element_type [ElementType.i8, ElementType.u8] &&
                  decide (in1.tensor.element_type = ElementType.i8)) := by
            simp [is_supported_matmul, is_type, hm, h4, Rank.is_dynamic]
          rw [e, key]
          constructor
          · intro h
            exact ⟨hm, ⟨out0, outs, rfl, h4⟩, ⟨in0, in1, ins, rfl, h⟩⟩
          · rintro ⟨_, _, in0', in1', ins', heq, h⟩
            cases heq
            exact h
      · have : (decide (out0.tensor.rank ≠ some 4)) = true := by simpa using h4
        simp [is_supported_matmul, this, h4]
    · simp [is_supported_matmul, is_type, hm]

/-- A `size_t` below `2 ^ 63` keeps its value when read as `int64_t`. -/
theorem size_t_to_int64_of_lt (x : Nat) (h : x < 2 ^ 63) : size_t_to_int64 x = (x : Int) := by
  have h64 : x % 2 ^ 64 = x := Nat.mod_eq_of_lt (by omega)
  unfold size_t_to_int64
  rw [h64, if_pos h]

/-- The body of `is_supported_reduce_op` holds exactly when the data input has a
static rank, `keep_dims` is set, the axes input is a constant with one element and
that element, normalised, is the last dimension. -/
theorem is_supported_reduce_body_iff (keep_dims : Bool) (n : Node) :
    is_supported_reduce_body keep_dims n = true ↔
      ∃ in0 in1 ins r shape a data,
        n.inputs = in0 :: in1 :: ins ∧ in0.tensor.rank = some r ∧ keep_dims = true ∧
        in1.source = Op.Constant shape (a :: data) ∧ shape_size shape = 1 ∧
        util.normalize a (r : Int) = (r : Int) - 1 := by
  obtain ⟨op, inputs, outputs, deps⟩ := n
  rcases inputs with _ | ⟨in0, _ | ⟨in1, ins⟩⟩
  · simp [is_supported_reduce_body]
  · simp [is_supported_reduce_body]
  · cases hr : in0.tensor.rank with
    | none => simp [is_supported_reduce_body, hr]
    | some r =>
      cases hs : in1.source with
      | Constant shape data =>
        rcases data with _ | ⟨a, data⟩
        · simp [is_supported_reduce_body, hr, hs]
        · cases keep_dims
          · simp [is_supported_reduce_body, hr, hs]
          · by_cases h1 : shape_size shape = 1
            · have e : is_supported_reduce_body true ⟨op, in0 :: in1 :: ins, outputs, deps⟩ =
                  decide (util.normalize a (r : Int) = (r : Int) - 1) := by
                simp [is_supported_reduce_body, hr, hs, h1]
              rw [e, decide_eq_true_eq]
              constructor
              · intro h
                exact ⟨in0, in1, ins, r, shape, a, data, rfl, hr, rfl, hs, h1, h⟩
              · rintro ⟨in0', in1', ins', r', shape', a', data', heq, hr', -, hs', -, h⟩
                cases heq
                rw [hr] at hr'
                rw [hs] at hs'
                cases hr'
                cases hs'
                exact h
            · have e : is_supported_reduce_body true ⟨op, in0 :: in1 :: ins, outputs, deps⟩ =
                  false := by
                simp [is_supported_reduce_body, hr, hs, h1]
              rw [e]
              simp only [Bool.false_eq_true, false_iff, not_exists, not_and]
              intro in0' in1' ins' r' shape' a' data' heq _ _ hs' h1'
              cases heq
              rw [hs] at hs'
              cases hs'
              exact absurd h1' h1
      | _ => simp [is_supported_reduce_body, hr, hs]

/-- Claim C5: `is_supported_reduce_op` holds exactly when the node is a `v1`
`ReduceMax` or `ReduceSum`, its data input has a static rank `r`, `keep_dims` is
true, its axes input is a constant with exactly one element `a`, and `a`
normalised against `r` equals `r - 1`. -/
theorem is_supported_reduce_op_iff (n : Node) :
    is_supported_reduce_op n = true ↔
      ∃ keep_dims in0 in1 ins r shape a data,
        (n.op = Op.ReduceMax keep_dims ∨ n.op = Op.ReduceSum keep_dims) ∧
        n.inputs = in0 :: in1 :: ins ∧ in0.tensor.rank = some r ∧ keep_dims = true ∧
        in1.source = Op.Constant shape (a :: data) ∧ shape_size shape = 1 ∧
        util.normalize a (r : Int) = (r : Int) - 1 := by
  cases hop : n.op with
  | ReduceMax k =>
    simp only [is_supported_reduce_op, hop, is_supported_reduce_body_iff]
    constructor
    · rintro ⟨in0, in1, ins, r, shape, a, data, h⟩
      exact ⟨k, in0, in1, ins, r, shape, a, data, Or.inl rfl, h⟩
    · rintro ⟨k', in0, in1, ins, r, shape, a, data, hk, h⟩
      have : k' = k := by rcases hk with hk | hk <;> cases hk; rfl
      subst this
      exact ⟨in0, in1, ins, r, shape, a, data, h⟩
  | ReduceSum k =>
    simp only [is_supported_reduce_op, hop, is_supported_reduce_body_iff]
    constructor
    · rintro ⟨in0, in1, ins, r, shape, a, data, h⟩
      exact ⟨k, in0, in1, ins, r, shape, a, data, Or.inr rfl, h⟩
    · rintro ⟨k', in0, in1, ins, r, shape, a, data, hk, h⟩
      have : k' = k := by rcases hk with hk | hk <;> cases hk; rfl
      subst this
      exact ⟨in0, in1, ins, r, shape, a, data, h⟩
  | _ => simp [is_supported_reduce_op, hop]

/-- Evaluation of C5: a `ReduceSum` with `keep_dims` over axis -1 of a rank-3
tensor is supported. -/
theorem is_supported_reduce_op_iff_witness :
    is_supported_reduce_op (reduce_sum_node (some 3) (-1)) = true :=
  (is_supported_reduce_op_iff (reduce_sum_node (some 3) (-1))).mpr
    ⟨true, plain_input (some 3) ElementType.f32,
      { tensor := { rank := some 1, element_type := ElementType.i32 },
        source := Op.Constant [1] [-1], source_index := 0 },
      [], 3, [1], -1, [], Or.inr rfl, rfl, rfl, rfl, rfl, by decide, by decide⟩

end pass

namespace lowered
namespace pass

/-! ## Runtime optimizers -/

/-- Claim C6: `register_if_applicable` makes one optimizer, calls its
`applicable()` once, and then calls `register_pass` with that optimizer exactly
when `applicable()` returned true: the pipeline gains that one pass in this case
and is left unchanged otherwise. -/
theorem register_if_applicable_registers_iff_applicable {Args P : Type}
    (T : OptimizerType Args P) (args : Args) (s : RegistrationState P) :
    (register_if_applicable T args s).calls =
      s.calls ++ [Call.make_shared (T.construct args),
          Call.applicable (T.construct args) (T.applicable (T.construct args))] ++
        (if T.applicable (T.construct args) = true then [Call.register_pass (T.construct args)]
          else []) ∧
    (register_if_applicable T args s).pipeline.passes =
      s.pipeline.passes ++
        (if T.applicable (T.construct args) = true then [T.construct args] else []) ∧
    (T.applicable (T.construct args) = false →
      (register_if_applicable T args s).pipeline = s.pipeline) := by
  cases h : T.applicable (T.construct args) <;>
    simp [register_if_applicable, make_shared, call_applicable, call_register_pass,
      PassPipeline.register_pass, h]

/-- Evaluation of C6: an optimizer that is applicable only with a non-zero
argument is registered for the argument 1 and not registered for 0. -/
theorem register_if_applicable_registers_iff_applicable_witness :
    (register_if_applicable (P := Nat) ⟨fun a : Nat => a, fun p => decide (p ≠ 0)⟩ 1
      ⟨⟨[7]⟩, []⟩).pipeline.passes = [7, 1] ∧
    (register_if_applicable (P := Nat) ⟨fun a : Nat => a, fun p => decide (p ≠ 0)⟩ 0
      ⟨⟨[7]⟩, []⟩).pipeline.passes = [7] :=
  ⟨(register_if_applicable_registers_iff_applicable (P := Nat)
      ⟨fun a : Nat => a, fun p => decide (p ≠ 0)⟩ 1 ⟨⟨[7]⟩, []⟩).2.1,
    (register_if_applicable_registers_iff_applicable (P := Nat)
      ⟨fun a : Nat => a, fun p => decide (p ≠ 0)⟩ 0 ⟨⟨[7]⟩, []⟩).2.1⟩

end pass
end lowered
end snippets

namespace intel_cpu
namespace node

/-! ## Reshape shape inference -/

/-- Claim C7, the code at a failing input: with `special_zero` off, the input shape
`[65536, 65537]` (4295032832 elements) and the pattern `[65536]` pass the check of
`ReshapeShapeInfer::infer`, which returns the shape `[65536]`: the two products
compared are accumulated in an `int` and agree modulo `2 ^ 32`. -/
theorem ReshapeShapeInfer_infer_accepts_truncated_product :
    ReshapeShapeInfer.infer false [65536, 65537] [65536] = Except.ok [65536] ∧
    ([65536, 65537] : VectorDims).prod ≠ ([65536] : VectorDims).prod ∧
    accumulate_multiplies [65536, 65537] = accumulate_multiplies [65536] := by
  refine ⟨rfl, by decide, by decide⟩

end node
end intel_cpu
end ov

namespace ov
namespace intel_cpu
namespace node

/-! ## Paged attention -/

/-- Claim C19: for an op that has both cache inputs, `isSupportedOperation` returns
false, with the "key value cache compression" message, exactly when the
value-cache precision is one of u4, u8, f32, f16, bf16 and the key-cache precision
is none of u4, i8, u8, f16, f32, bf16; in every other case it returns true and
leaves the message as it was, whatever the type name and the number of inputs. -/
theorem isSupportedOperation_false_iff (to_string : ElementType → String)
    (op : PagedAttentionOp) (errorMessage : String) (vCachePrecision kCachePrecision : ElementType)
    (hv : op.input_element_types.get? PagedAttentionExecutor.ID_VCACHE = some vCachePrecision)
    (hk : op.input_element_types.get? PagedAttentionExecutor.ID_KCACHE = some kCachePrecision) :
    ((PagedAttention.isSupportedOperation to_string op errorMessage).1 = false ↔
      vCachePrecision ∈
          [ElementType.u4, ElementType.u8, ElementType.f32, ElementType.f16, ElementType.bf16] ∧
        kCachePrecision ∉
          [ElementType.u4, ElementType.i8, ElementType.u8, ElementType.f16, ElementType.f32,
            ElementType.bf16]) ∧
    ((PagedAttention.isSupportedOperation to_string op errorMessage).1 = false →
      (PagedAttention.isSupportedOperation to_string op errorMessage).2 =
        "PageAttn key value cache compression doesn't support key cache prec " ++
          to_string kCachePrecision ++ " value cache prec " ++ to_string vCachePrecision) ∧
    ((PagedAttention.isSupportedOperation to_string op errorMessage).1 = true →
      PagedAttention.isSupportedOperation to_string op errorMessage = (true, errorMessage)) := by
  unfold PagedAttention.isSupportedOperation
  rw [hv, hk]
  cases vCachePrecision <;> cases kCachePrecision <;>
    simp [any_of, none_of]

/-- Evaluation of C19: with a u8 value cache, an i4 key cache is rejected and an i8
key cache accepted, for an op of another type name with five inputs. -/
theorem isSupportedOperation_false_iff_witness :
    (PagedAttention.isSupportedOperation (fun _ => "t")
      ⟨"Other", [ElementType.f32, ElementType.f32, ElementType.f32, ElementType.i4,
        ElementType.u8]⟩ "").1 = false ∧
    PagedAttention.isSupportedOperation (fun _ => "t")
      ⟨"Other", [ElementType.f32, ElementType.f32, ElementType.f32, ElementType.i8,
        ElementType.u8]⟩ "" = (true, "") :=
  ⟨(isSupportedOperation_false_iff (fun _ => "t")
      ⟨"Other", [ElementType.f32, ElementType.f32, ElementType.f32, ElementType.i4,
        ElementType.u8]⟩ "" ElementType.u8 ElementType.i4 rfl rfl).1.mpr
      ⟨by decide, by decide⟩,
    (isSupportedOperation_false_iff (fun _ => "t")
      ⟨"Other", [ElementType.f32, ElementType.f32, ElementType.f32, ElementType.i8,
        ElementType.u8]⟩ "" ElementType.u8 ElementType.i8 rfl rfl).2.2 (by decide)⟩

/-- Claim C17: for query dims `[T, H * S]`, key dims `[T, Hkv * S]` and value dims
`[T, Hkv * Sv]` with `Hkv ≥ 1`, `S ≥ 1` and no 64-bit overflow, `execute` redefines
output 0 with dims `[T, H * Sv]`: the hidden size is `q[1] * v[1] / k[1]` when
`k[1]` differs from `v[1]` and `q[1]` otherwise. -/
theorem execute_output_hidden_size (m_hasScore : Bool) (T H S Hkv Sv : Nat)
    (others : List VectorDims) (pastLens : List Int)
    (hHkv : 1 ≤ Hkv) (hS : 1 ≤ S) (hno : (H * S) * (Hkv * Sv) < 2 ^ 64) :
    (PagedAttention.execute_output_dims m_hasScore
      ([T, H * S] :: [T, Hkv * S] :: [T, Hkv * Sv] :: others) pastLens).1 = [T, H * Sv] ∧
    H * Sv = (if Hkv * S ≠ Hkv * Sv then (H * S) * (Hkv * Sv) / (Hkv * S) else H * S) := by
  have hpos : 0 < Hkv * S := Nat.mul_pos hHkv hS
  have hdiv : (H * S) * (Hkv * Sv) / (Hkv * S) = H * Sv := by
    have : (H * S) * (Hkv * Sv) = (H * Sv) * (Hkv * S) := by ring
    rw [this, Nat.mul_div_cancel _ hpos]
  have hsecond : H * Sv = (if Hkv * S ≠ Hkv * Sv then (H * S) * (Hkv * Sv) / (Hkv * S)
      else H * S) := by
    by_cases h : Hkv * S = Hkv * Sv
    · have hSv : S = Sv := Nat.eq_of_mul_eq_mul_left hHkv h
      simp [h, hSv]
    · simp [h, hdiv]
  refine ⟨?_, hsecond⟩
  have hfst : ∀ (a : VectorDims) (b c : VectorDims),
      (if m_hasScore = true then (a, b) else (a, c)).1 = a := by
    intro a b c; cases m_hasScore <;> rfl
  unfold PagedAttention.execute_output_dims
  simp only [List.getD_cons_zero, List.getD_cons_succ]
  rw [hfst]
  by_cases h : Hkv * S = Hkv * Sv
  · have hSv : S = Sv := Nat.eq_of_mul_eq_mul_left hHkv h
    simp [h, hSv]
  · have hw : to_size_t (H * S * (Hkv * Sv)) = H * S * (Hkv * Sv) := Nat.mod_eq_of_lt hno
    simp [h, hw, hdiv]

/-- Evaluation of C17: 32 query heads of size 64, 8 key/value heads, value head
size 128, 5 tokens: the output dims are `[5, 32 * 128]`. -/
theorem execute_output_hidden_size_witness :
    (PagedAttention.execute_output_dims false
      ([5, 32 * 64] :: [5, 8 * 64] :: [5, 8 * 128] :: []) []).1 = [5, 32 * 128] :=
  (execute_output_hidden_size false 5 32 64 8 128 [] [] (by decide) (by decide)
    (by norm_num)).1

/-- Claim C20, the code at a failing input: whenever the descriptors are built, the
port of `xattention_stride` gets a plain descriptor built from the input shape of
the port of `xattention_block_size`. For a node whose `xattention_stride` input has
shape `[1]` and whose `xattention_block_size` input has shape `[]`, the descriptor
of the `xattention_stride` port is built from `[]`, not from the shape of its own
port. -/
theorem initSupportedPrimitiveDescriptors_stride_uses_block_size_shape (platform : Platform) :
    (∀ node node' : PagedAttentionNode, node.supportedPrimitiveDescriptors = [] →
      PagedAttention.initSupportedPrimitiveDescriptors platform node = Except.ok node' →
      node'.supportedPrimitiveDescriptors.map
          (fun config => config.inConfs.getD PagedAttentionExecutor.ID_XATTENTION_STRIDE none) =
        [ncsp_desc ElementType.i32
          (node.getInputShapeAtPort PagedAttentionExecutor.ID_XATTENTION_BLOCK_SIZE)]) ∧
    (∃ node', PagedAttention.initSupportedPrimitiveDescriptors platform stride_vector_node =
        Except.ok node' ∧
      node'.supportedPrimitiveDescriptors.map
          (fun config => config.inConfs.getD PagedAttentionExecutor.ID_XATTENTION_STRIDE none) =
        [ncsp_desc ElementType.i32 []]) ∧
    stride_vector_node.getInputShapeAtPort PagedAttentionExecutor.ID_XATTENTION_STRIDE = [1] ∧
    ncsp_desc ElementType.i32 [] ≠
      ncsp_desc ElementType.i32
        (stride_vector_node.getInputShapeAtPort PagedAttentionExecutor.ID_XATTENTION_STRIDE) := by
  have general : ∀ node node' : PagedAttentionNode, node.supportedPrimitiveDescriptors = [] →
      PagedAttention.initSupportedPrimitiveDescriptors platform node = Except.ok node' →
      node'.supportedPrimitiveDescriptors.map
          (fun config => config.inConfs.getD PagedAttentionExecutor.ID_XATTENTION_STRIDE none) =
        [ncsp_desc ElementType.i32
          (node.getInputShapeAtPort PagedAttentionExecutor.ID_XATTENTION_BLOCK_SIZE)] := by
    intro node node' hempty h
    unfold PagedAttention.initSupportedPrimitiveDescriptors at h
    rw [if_neg (by simp [hempty])] at h
    by_cases h20 : node.inputShapes.length = 20
    · simp only [h20, ne_eq, not_true_eq_false, ↓reduceIte, Except.ok.injEq] at h
      subst h
      simp [hempty, PagedAttentionExecutor.ID_XATTENTION_STRIDE, List.getD_eq_getElem?_getD]
    · simp [h20] at h
  refine ⟨general, ?_, by decide, by decide⟩
  have hok : ∃ node', PagedAttention.initSupportedPrimitiveDescriptors platform
      stride_vector_node = Except.ok node' := by
    unfold PagedAttention.initSupportedPrimitiveDescriptors
    simp [stride_vector_node]
  obtain ⟨node', h⟩ := hok
  refine ⟨node', h, ?_⟩
  have := general stride_vector_node node' rfl h
  simpa [PagedAttentionNode.getInputShapeAtPort, stride_vector_node,
    PagedAttentionExecutor.ID_XATTENTION_BLOCK_SIZE] using this

end node
end intel_cpu
end ov

namespace ov
namespace pass

/-! ## Conversion of the paged-attention cache inputs -/

/-- Claim C18, the code at a failing input: for a node whose rt_info has
`num_k_heads`, `k_head_size` and `num_v_heads` but lacks `v_head_size`, the
callback passes its four `count` tests (the fourth repeats `num_v_heads`), adds an
empty `v_head_size` entry to the rt_info and raises when it reads that entry as a
`size_t`. When one of the three tested keys is missing the callback returns false
and leaves the rt_info as it was. -/
theorem ConvertPagedAttnInputs_callback_missing_v_head_size (E : CallbackExternals) :
    graph_without_v_head_size.rt_info.count "v_head_size" = 0 ∧
    (ConvertPagedAttnInputs.callback E sample_cache_config graph_without_v_head_size).2 =
      Except.error "Any was not initialized" ∧
    (ConvertPagedAttnInputs.callback E sample_cache_config graph_without_v_head_size).1.rt_info =
      graph_without_v_head_size.rt_info ++ [("v_head_size", Any.empty)] ∧
    (∀ (m_config : KVCacheConfig) (g : MatchedGraph),
      (g.rt_info.count "num_k_heads" = 0 ∨ g.rt_info.count "k_head_size" = 0 ∨
        g.rt_info.count "num_v_heads" = 0) →
      (ConvertPagedAttnInputs.callback E m_config g).2 = Except.ok false ∧
      (ConvertPagedAttnInputs.callback E m_config g).1.rt_info = g.rt_info) := by
  refine ⟨by decide, ?_, ?_, ?_⟩
  · simp [ConvertPagedAttnInputs.callback, compute_cache_shapes, graph_without_v_head_size,
      RTMap.count, RTMap.subscript, Any.as_size_t, init_cache_shape, sample_cache_config,
      List.lookup, size_t_to_int64, format_cache_precision, Int.tmod]
  · simp [ConvertPagedAttnInputs.callback, compute_cache_shapes, graph_without_v_head_size,
      RTMap.count, RTMap.subscript, Any.as_size_t, init_cache_shape, sample_cache_config,
      List.lookup, size_t_to_int64, format_cache_precision, Int.tmod]
  · intro m_config g h
    have hcond : ¬ (g.rt_info.count "num_k_heads" ≠ 0 ∧ g.rt_info.count "k_head_size" ≠ 0 ∧
        g.rt_info.count "num_v_heads" ≠ 0 ∧ g.rt_info.count "num_v_heads" ≠ 0) := by
      rintro ⟨h1, h2, h3, -⟩
      rcases h with h | h | h
      · exact h1 h
      · exact h2 h
      · exact h3 h
    constructor <;> simp only [ConvertPagedAttnInputs.callback, if_neg hcond]

end pass
end ov

namespace ov
namespace snippets
namespace lowered
namespace pass

/-! ## Loop marking -/

/-- A chain of expressions of one layout and one shape stays in the loop that is
open when the walk reaches it. -/
theorem walk_chain (V : Nat) (layout shape : List Nat) (rest : List MarkedExpression) :
    ∀ (id first pos : Nat) (current : MarkedExpression),
      (∀ e ∈ current :: rest, e.layout = layout ∧ e.shape = shape) →
      is_chain pos (current :: rest) →
      MarkLoops.walk V id first pos current rest =
        [{ id := id, first := first, last := pos + rest.length,
           work_amount := shape.getLastD 1, increment := V,
           tail := shape.getLastD 1 % V }] := by
  induction rest with
  | nil =>
    intro id first pos current hall _
    have hc := hall current (List.mem_cons_self _ _)
    simp [MarkLoops.walk, MarkLoops.close_loop, hc.2]
  | cons next rest ih =>
    intro id first pos current hall hchain
    have hc := hall current (List.mem_cons_self _ _)
    have hn := hall next (List.mem_cons_of_mem _ (List.mem_cons_self _ _))
    have hsame : MarkLoops.same_loop pos current next = true := by
      simp [MarkLoops.same_loop, hc.1, hc.2, hn.1, hn.2, hchain.1]
    have hrest : ∀ e ∈ next :: rest, e.layout = layout ∧ e.shape = shape :=
      fun e he => hall e (List.mem_cons_of_mem _ he)
    simp only [MarkLoops.walk, hsame, if_true]
    rw [ih id first (pos + 1) next hrest hchain.2]
    simp [Nat.add_assoc, Nat.add_comm 1]

/-- Claim C11: for a non-empty chain of expressions that all have the same layout
and the same shape `[1, N]`, `MarkLoops` with vector size `V` marks exactly one
loop, which wraps the whole chain and has work amount `N`, increment `V` and tail
`N % V`. -/
theorem MarkLoops_chain_one_loop (V N : Nat) (layout : List Nat)
    (exprs : List MarkedExpression) (hne : exprs ≠ [])
    (hall : ∀ e ∈ exprs, e.layout = layout ∧ e.shape = [1, N])
    (hchain : is_chain 0 exprs) :
    MarkLoops.run V exprs =
      [{ id := 0, first := 0, last := exprs.length - 1, work_amount := N, increment := V,
         tail := N % V }] := by
  cases exprs with
  | nil => exact absurd rfl hne
  | cons e rest =>
    simp only [MarkLoops.run]
    rw [walk_chain V layout [1, N] rest 0 0 0 e hall hchain]
    simp

/-- Evaluation of C11, scenario 1: a chain of three elementwise expressions of shape
`[1, 128]` and vector size 8 give exactly one loop with work amount 128, increment 8
and tail 0. -/
theorem MarkLoops_chain_one_loop_witness :
    MarkLoops.run 8
        [eltwise_expression 128 [1], eltwise_expression 128 [2], eltwise_expression 128 []] =
      [{ id := 0, first := 0, last := 2, work_amount := 128, increment := 8, tail := 0 }] :=
  MarkLoops_chain_one_loop 8 128 [0, 1]
    [eltwise_expression 128 [1], eltwise_expression 128 [2], eltwise_expression 128 []]
    (by decide) (by decide) (by simp [is_chain, eltwise_expression])

end pass
end lowered
end snippets
end ov

namespace ov
namespace intel_cpu
namespace node

/-! ## Squeeze shape inference -/

/-- The first loop of `SqueezeShapeInfer::infer` keeps the length of the mask and
sets exactly the entries named by a pattern value in range whose dim is 1. -/
theorem squeeze_mask_fold (x : VectorDims) (data : List Int) :
    ∀ mask : List Bool, mask.length = x.length →
      (data.foldl (squeeze_mask_step x) mask).length = x.length ∧
      ∀ j, j < x.length →
        (data.foldl (squeeze_mask_step x) mask).getD j false =
          (mask.getD j false ||
            (decide (x.getD j 0 = 1) &&
              data.any (fun a => decide (squeeze_axis x.length a = (j : Int))))) := by
  induction data with
  | nil => intro mask h; simp [h]
  | cons a rest ih =>
    intro mask hlen
    simp only [List.foldl_cons]
    have hstep : (squeeze_mask_step x mask a).length = x.length := by
      unfold squeeze_mask_step
      split <;> simp [hlen]
    obtain ⟨h1, h2⟩ := ih (squeeze_mask_step x mask a) hstep
    refine ⟨h1, ?_⟩
    intro j hj
    rw [h2 j hj]
    have hget : (squeeze_mask_step x mask a).getD j false =
        (mask.getD j false ||
          (decide (x.getD j 0 = 1) && decide (squeeze_axis x.length a = (j : Int)))) := by
      unfold squeeze_mask_step
      by_cases hc : 0 ≤ squeeze_axis x.length a ∧ squeeze_axis x.length a < x.length ∧
          x.getD (squeeze_axis x.length a).toNat 0 = 1
      · rw [if_pos hc]
        obtain ⟨hc0, hc1, hc2⟩ := hc
        by_cases hj' : squeeze_axis x.length a = (j : Int)
        · have htn : (squeeze_axis x.length a).toNat = j := by omega
          rw [htn] at hc2
          have hl : (mask.set j true).getD j false = true := by
            simp [List.getD_eq_getElem?_getD, hlen, hj]
          rw [htn, hl]
          have hd : decide (x.getD j 0 = 1) = true := by simpa using hc2
          rw [hd]
          simp [hj']
        · have htn : (squeeze_axis x.length a).toNat ≠ j := by omega
          simp [List.getD_eq_getElem?_getD, List.getElem?_set, htn, hj']
      · rw [if_neg hc]
        by_cases hj' : squeeze_axis x.length a = (j : Int)
        · have htn : (squeeze_axis x.length a).toNat = j := by omega
          have hx : ¬ x.getD j 0 = 1 := by
            intro hx
            apply hc
            refine ⟨by omega, by omega, ?_⟩
            rw [htn]; exact hx
          have hd : decide (x.getD j 0 = 1) = false := by simpa using hx
          rw [hd]
          simp
        · simp [hj']
    rw [hget]
    simp only [List.any_cons]
    cases mask.getD j false <;> cases decide (x.getD j 0 = 1) <;> simp

/-- Pushing the unmasked dims removes the positions whose mask entry is set. -/
theorem push_unmasked_eq_remove_positions_from (removed : Nat → Bool) :
    ∀ (x : VectorDims) (mask : List Bool) (start : Nat), mask.length = x.length →
      (∀ j, j < x.length → mask.getD j false = removed (start + j)) →
      push_unmasked x mask = remove_positions_from removed start x := by
  intro x
  induction x with
  | nil => intro mask start _ _; cases mask <;> simp [push_unmasked, remove_positions_from]
  | cons d ds ih =>
    intro mask start hlen h
    cases mask with
    | nil => simp at hlen
    | cons m ms =>
      have h0 := h 0 (by simp)
      simp only [List.getD_cons_zero, Nat.add_zero] at h0
      have hrest := ih ms (start + 1) (by simpa using hlen) (by
        intro j hj
        have := h (j + 1) (by simpa using hj)
        simp only [List.getD_cons_succ] at this
        rw [this]
        congr 1
        omega)
      simp only [push_unmasked, remove_positions_from, ← h0, hrest]

/-- Removing the dims equal to 1 is removing the positions that hold a 1. -/
theorem push_non_unit_eq_remove_positions_from :
    ∀ (x : VectorDims) (start : Nat) (removed : Nat → Bool),
      (∀ j, j < x.length → removed (start + j) = decide (x.getD j 0 = 1)) →
      push_non_unit x = remove_positions_from removed start x := by
  intro x
  induction x with
  | nil => intro start removed _; simp [push_non_unit, remove_positions_from]
  | cons d ds ih =>
    intro start removed h
    have h0 := h 0 (by simp)
    simp only [List.getD_cons_zero, Nat.add_zero] at h0
    have hrest := ih (start + 1) removed (by
      intro j hj
      have := h (j + 1) (by simpa using hj)
      simp only [List.getD_cons_succ] at this
      rw [← this]
      congr 1
      omega)
    unfold push_non_unit at hrest ⊢
    simp only [remove_positions_from, h0, List.filter_cons, hrest]
    by_cases hd : d = 1 <;> simp [hd]

/-- Removing positions leaves a sublist: the remaining dims keep their order. -/
theorem remove_positions_from_sublist (removed : Nat → Bool) :
    ∀ (x : VectorDims) (start : Nat), List.Sublist (remove_positions_from removed start x) x := by
  intro x
  induction x with
  | nil => intro start; simp [remove_positions_from]
  | cons d ds ih =>
    intro start
    simp only [remove_positions_from]
    split
    · exact List.Sublist.cons _ (ih _)
    · exact List.Sublist.cons₂ _ (ih _)

/-- Claim C13: `SqueezeShapeInfer::infer` always returns a result with status
success. With an axes tensor of rank at least 1 the result is the input shape
without the positions that hold a 1 and are named by some axis, a negative axis
counting from the end (an axis out of range names no position); without an axes
input, or with an axes tensor of rank 0, it is the input shape without the
positions that hold a 1. The remaining dims keep their order. -/
theorem SqueezeShapeInfer_infer_removes_named_unit_dims (x : VectorDims) :
    (∀ pattern, (SqueezeShapeInfer.infer x pattern).status = ShapeInferStatus.success) ∧
    (∀ dims data, dims ≠ [] →
      (SqueezeShapeInfer.infer x (some ⟨dims, data⟩)).dims =
        [remove_positions
          (fun i => decide (x.getD i 0 = 1) &&
            data.any (fun a => decide (squeeze_axis x.length a = (i : Int)))) x]) ∧
    (∀ data, (SqueezeShapeInfer.infer x (some ⟨[], data⟩)).dims =
        [remove_positions (fun i => decide (x.getD i 0 = 1)) x]) ∧
    ((SqueezeShapeInfer.infer x none).dims =
        [remove_positions (fun i => decide (x.getD i 0 = 1)) x]) ∧
    (∀ pattern, ∃ y, (SqueezeShapeInfer.infer x pattern).dims = [y] ∧ List.Sublist y x) := by
  have hnon : push_non_unit x = remove_positions (fun i => decide (x.getD i 0 = 1)) x :=
    push_non_unit_eq_remove_positions_from x 0 _ (by intro j _; simp)
  have hmask : ∀ data : List Int,
      push_unmasked x (data.foldl (squeeze_mask_step x) (List.replicate x.length false)) =
        remove_positions
          (fun i => decide (x.getD i 0 = 1) &&
            data.any (fun a => decide (squeeze_axis x.length a = (i : Int)))) x := by
    intro data
    obtain ⟨h1, h2⟩ := squeeze_mask_fold x data (List.replicate x.length false) (by simp)
    apply push_unmasked_eq_remove_positions_from _ x _ 0 h1
    intro j hj
    rw [h2 j hj]
    simp [List.getD_eq_getElem?_getD, hj]
  refine ⟨?_, ?_, ?_, ?_, ?_⟩
  · intro pattern
    unfold SqueezeShapeInfer.infer
    split
    · split <;> rfl
    · rfl
  · intro dims data hd
    simp [SqueezeShapeInfer.infer, hd, hmask]
  · intro data
    simp [SqueezeShapeInfer.infer, hnon]
  · simp [SqueezeShapeInfer.infer, hnon]
  · intro pattern
    cases pattern with
    | none =>
      exact ⟨remove_positions (fun i => decide (x.getD i 0 = 1)) x,
        by simp [SqueezeShapeInfer.infer, hnon], remove_positions_from_sublist _ x 0⟩
    | some memPtr =>
      by_cases hd : memPtr.dims = []
      · refine ⟨remove_positions (fun i => decide (x.getD i 0 = 1)) x, ?_,
          remove_positions_from_sublist _ x 0⟩
        simp [SqueezeShapeInfer.infer, hd, hnon]
      · refine ⟨remove_positions
          (fun i => decide (x.getD i 0 = 1) &&
            memPtr.data.any (fun a => decide (squeeze_axis x.length a = (i : Int)))) x, ?_,
          remove_positions_from_sublist _ x 0⟩
        simp [SqueezeShapeInfer.infer, hd, hmask]

/-- Evaluation of C13: from `[1, 2, 1, 3, 1]` the axes `[0, -1, 1, 7]` remove the
first and the last dim; the axis 1 names a dim that is not 1 and the axis 7 is out
of range. -/
theorem SqueezeShapeInfer_infer_removes_named_unit_dims_witness :
    (SqueezeShapeInfer.infer [1, 2, 1, 3, 1] (some ⟨[4], [0, -1, 1, 7]⟩)).dims =
      [remove_positions
        (fun i => decide (([1, 2, 1, 3, 1] : VectorDims).getD i 0 = 1) &&
          ([0, -1, 1, 7] : List Int).any
            (fun a => decide (squeeze_axis ([1, 2, 1, 3, 1] : VectorDims).length a = (i : Int))))
        [1, 2, 1, 3, 1]] ∧
    (SqueezeShapeInfer.infer [1, 2, 1, 3, 1] (some ⟨[4], [0, -1, 1, 7]⟩)).dims = [[2, 1, 3]] :=
  ⟨(SqueezeShapeInfer_infer_removes_named_unit_dims [1, 2, 1, 3, 1]).2.1 [4] [0, -1, 1, 7]
      (by decide), by decide⟩

end node
end intel_cpu
end ov

namespace ov
namespace intel_cpu
namespace node

/-! ## Unsqueeze shape inference -/

/-- The first loop of `UnsqueezeShapeInfer::infer` breaks exactly when some pattern
value is out of range. -/
theorem mark_unsqueeze_axes_isSome (m : Nat) (P : List Int) :
    ∀ s : VectorDims, (mark_unsqueeze_axes m P s).isSome = true ↔
      ∀ a ∈ P, 0 ≤ unsqueeze_axis m a ∧ unsqueeze_axis m a < m := by
  induction P with
  | nil => intro s; simp [mark_unsqueeze_axes]
  | cons a rest ih =>
    intro s
    by_cases hc : 0 ≤ unsqueeze_axis m a ∧ unsqueeze_axis m a < m
    · simp only [mark_unsqueeze_axes, if_pos hc, ih, List.mem_cons, forall_eq_or_imp]
      exact ⟨fun h => ⟨hc, h⟩, fun h => h.2⟩
    · simp only [mark_unsqueeze_axes, if_neg hc, List.mem_cons, forall_eq_or_imp]
      simp only [Option.isSome_none, Bool.false_eq_true, false_iff, not_and]
      intro h
      exact absurd h hc

/-- When the first loop of `UnsqueezeShapeInfer::infer` ends without error,
`outputShape` has kept its length, holds 1 at the positions named by a pattern value
and is unchanged elsewhere. -/
theorem mark_unsqueeze_axes_some (m : Nat) (P : List Int) :
    ∀ s s' : VectorDims, mark_unsqueeze_axes m P s = some s' →
      s'.length = s.length ∧
      ∀ j, j < s.length →
        s'.getD j 0 =
          if P.any (fun a => decide (unsqueeze_axis m a = (j : Int))) = true then 1
          else s.getD j 0 := by
  induction P with
  | nil =>
    intro s s' h
    simp only [mark_unsqueeze_axes, Option.some.injEq] at h
    subst h
    simp
  | cons a rest ih =>
    intro s s' h
    by_cases hc : 0 ≤ unsqueeze_axis m a ∧ unsqueeze_axis m a < m
    · simp only [mark_unsqueeze_axes, if_pos hc] at h
      obtain ⟨h1, h2⟩ := ih _ _ h
      simp only [List.length_set] at h1 h2
      refine ⟨h1, ?_⟩
      intro j hj
      rw [h2 j hj]
      by_cases hj' : unsqueeze_axis m a = (j : Int)
      · have htn : (unsqueeze_axis m a).toNat = j := by omega
        simp [hj', htn, List.getD_eq_getElem?_getD, hj]
      · have htn : (unsqueeze_axis m a).toNat ≠ j := by omega
        simp [hj', htn, List.getD_eq_getElem?_getD, List.getElem?_set]
    · simp [mark_unsqueeze_axes, if_neg hc] at h

/-- The second loop of `UnsqueezeShapeInfer::infer` ends without error exactly when
the input has a dim left for every entry 0 of `outputShape`. -/
theorem fill_input_dims_isSome (x : VectorDims) :
    ∀ (s : VectorDims) (y : Nat), y ≤ x.length →
      ((fill_input_dims x s y).isSome = true ↔ y + s.count 0 ≤ x.length) := by
  intro s
  induction s with
  | nil => intro y hy; simp [fill_input_dims, hy]
  | cons d rest ih =>
    intro y hy
    by_cases hd : d = 0
    · subst hd
      by_cases hlt : y < x.length
      · simp only [fill_input_dims, if_true, if_pos hlt, Option.isSome_map', List.count_cons_self]
        rw [ih (y + 1) hlt]
        omega
      · simp only [fill_input_dims, if_true, if_neg hlt, List.count_cons_self]
        simp only [Option.isSome_none, Bool.false_eq_true, false_iff]
        omega
    · have hne : (d == 0) = false := by simpa using hd
      simp only [fill_input_dims, if_neg hd, Option.isSome_map', List.count_cons, hne]
      simpa using ih y hy

/-- When the second loop of `UnsqueezeShapeInfer::infer` ends without error,
`outputShape` has kept its length and its entries different from 0, and its entries
0 hold the next dims of the input, in order. -/
theorem fill_input_dims_some (x : VectorDims) (removed : Nat → Bool) :
    ∀ (s out : VectorDims) (y start : Nat), fill_input_dims x s y = some out →
      (∀ j, j < s.length → removed (start + j) = decide (s.getD j 0 ≠ 0)) →
      out.length = s.length ∧
      (∀ j, j < s.length → s.getD j 0 ≠ 0 → out.getD j 0 = s.getD j 0) ∧
      remove_positions_from removed start out = (x.drop y).take (s.count 0) := by
  intro s
  induction s with
  | nil =>
    intro out y start h _
    simp only [fill_input_dims, Option.some.injEq] at h
    subst h
    simp [remove_positions_from]
  | cons d rest ih =>
    intro out y start h hrem
    have hrem0 := hrem 0 (by simp)
    simp only [List.getD_cons_zero, Nat.add_zero] at hrem0
    have hrem' : ∀ j, j < rest.length → removed (start + 1 + j) = decide (rest.getD j 0 ≠ 0) := by
      intro j hj
      have := hrem (j + 1) (by simpa using hj)
      simp only [List.getD_cons_succ] at this
      rw [← this]
      congr 1
      omega
    by_cases hd : d = 0
    · subst hd
      by_cases hlt : y < x.length
      · simp only [fill_input_dims, if_true, if_pos hlt, Option.map_eq_some'] at h
        obtain ⟨filled, hf, rfl⟩ := h
        obtain ⟨h1, h2, h3⟩ := ih filled (y + 1) (start + 1) hf hrem'
        refine ⟨by simp [h1], ?_, ?_⟩
        · intro j hj hne
          cases j with
          | zero => simp at hne
          | succ j =>
            simp only [List.getD_cons_succ] at hne ⊢
            exact h2 j (by simpa using hj) hne
        · have hr : removed start = false := by simpa using hrem0
          simp only [remove_positions_from, hr, Bool.false_eq_true, if_false, h3,
            List.count_cons_self]
          rw [List.getD_eq_getElem?_getD, List.getElem?_eq_getElem hlt, Option.getD_some]
          rw [List.drop_eq_getElem_cons hlt, List.take_succ_cons]
      · simp [fill_input_dims, if_neg hlt] at h
    · have hne : (d == 0) = false := by simpa using hd
      simp only [fill_input_dims, if_neg hd, Option.map_eq_some'] at h
      obtain ⟨filled, hf, rfl⟩ := h
      obtain ⟨h1, h2, h3⟩ := ih filled y (start + 1) hf hrem'
      refine ⟨by simp [h1], ?_, ?_⟩
      · intro j hj hne'
        cases j with
        | zero => simp
        | succ j =>
          simp only [List.getD_cons_succ] at hne' ⊢
          exact h2 j (by simpa using hj) hne'
      · have hr : removed start = true := by simpa using hrem0 ▸ (by simp [hd] : decide (d ≠ 0) = true)
        simp only [remove_positions_from, hr, if_true, h3, List.count_cons, hne]
        simp

/-- Among the positions below `m`, those of a list of positions below `m` are as
many as the list has distinct entries. -/
theorem countP_range_mem (m : Nat) (L : List Nat) (hL : ∀ l ∈ L, l < m) :
    (List.range m).countP (fun i => decide (i ∈ L)) = L.toFinset.card := by
  rw [List.countP_eq_length_filter]
  have hset : ((List.range m).filter (fun i => decide (i ∈ L))).toFinset = L.toFinset := by
    ext i
    simp only [List.mem_toFinset, List.mem_filter, List.mem_range, decide_eq_true_eq]
    exact ⟨fun h => h.2, fun h => ⟨hL i h, h⟩⟩
  rw [← hset, List.toFinset_card_of_nodup ((List.nodup_range m).filter _)]

/-- After the first loop of `UnsqueezeShapeInfer::infer`, the entries 0 of
`outputShape` and the distinct positions named by the pattern values together are
as many as `outputShape` has entries. -/
theorem count_zero_marked (m : Nat) (P : List Int) (s : VectorDims) (hlen : s.length = m)
    (hget : ∀ j, j < m → s.getD j 0 =
      if P.any (fun a => decide (unsqueeze_axis m a = (j : Int))) = true then 1 else 0)
    (hrange : ∀ a ∈ P, 0 ≤ unsqueeze_axis m a ∧ unsqueeze_axis m a < m) :
    s.count 0 + (P.map (fun a => (unsqueeze_axis m a).toNat)).toFinset.card = m := by
  have hany : ∀ j : Nat, P.any (fun a => decide (unsqueeze_axis m a = (j : Int))) = true ↔
      j ∈ P.map (fun a => (unsqueeze_axis m a).toNat) := by
    intro j
    simp only [List.any_eq_true, decide_eq_true_eq, List.mem_map]
    constructor
    · rintro ⟨a, ha, h⟩
      exact ⟨a, ha, by omega⟩
    · rintro ⟨a, ha, h⟩
      have := hrange a ha
      exact ⟨a, ha, by omega⟩
  have hL : ∀ l ∈ P.map (fun a => (unsqueeze_axis m a).toNat), l < m := by
    intro l hl
    simp only [List.mem_map] at hl
    obtain ⟨a, ha, rfl⟩ := hl
    have := hrange a ha
    omega
  generalize P.map (fun a => (unsqueeze_axis m a).toNat) = L at hany hL ⊢
  have hs : s = (List.range m).map (fun j => if j ∈ L then 1 else 0) := by
    apply List.ext_getElem
    · simp [hlen]
    · intro i h1 h2
      have hi : i < m := by omega
      have := hget i hi
      rw [List.getD_eq_getElem?_getD, List.getElem?_eq_getElem h1, Option.getD_some] at this
      rw [this]
      simp only [List.getElem_map, List.getElem_range]
      by_cases hmem : i ∈ L
      · rw [if_pos ((hany i).mpr hmem), if_pos hmem]
      · rw [if_neg (fun h => hmem ((hany i).mp h)), if_neg hmem]
  have hcount : s.count 0 = (List.range m).countP
      (fun i => decide ¬ (decide (i ∈ L) = true)) := by
    rw [hs, List.count, List.countP_map]
    apply List.countP_congr
    intro i _
    by_cases hmem : i ∈ L <;> simp [hmem]
  have hsplit := List.length_eq_countP_add_countP (fun i => decide (i ∈ L)) (List.range m)
  rw [List.length_range, countP_range_mem m _ hL] at hsplit
  rw [hcount]
  omega

/-- Two lists with the same members give the same answer to every `any`. -/
theorem any_congr_of_mem_iff {α : Type} (P Q : List α) (f : α → Bool)
    (h : ∀ a, a ∈ P ↔ a ∈ Q) : P.any f = Q.any f := by
  rw [Bool.eq_iff_iff]
  simp only [List.any_eq_true]
  exact ⟨fun ⟨a, ha, hf⟩ => ⟨a, (h a).mp ha, hf⟩, fun ⟨a, ha, hf⟩ => ⟨a, (h a).mpr ha, hf⟩⟩

/-- An enumeration without repetition of the members of a list has as many entries
as the list has distinct values. -/
theorem length_eq_dedup_length (P Q : List Int) (hnodup : P.Nodup)
    (hmem : ∀ a, a ∈ P ↔ a ∈ Q) : P.length = Q.dedup.length := by
  apply List.Perm.length_eq
  rw [List.perm_ext_iff_of_nodup hnodup (List.nodup_dedup Q)]
  intro a
  rw [hmem a, List.mem_dedup]

/-- The result of `UnsqueezeShapeInfer::infer` in terms of the set of pattern values
only: it succeeds with `y` exactly when every value is in range and the second loop
turns the shape that holds 1 at the named positions and 0 elsewhere into `y`. -/
theorem UnsqueezeShapeInfer_infer_eq_ok_iff (order : List Int → List Int) (x : VectorDims)
    (axes : List Int) (hnodup : (order axes).Nodup) (hmem : ∀ a, a ∈ order axes ↔ a ∈ axes)
    (y : VectorDims) :
    UnsqueezeShapeInfer.infer order x axes = Except.ok y ↔
      (∀ a ∈ axes, 0 ≤ unsqueeze_axis (x.length + axes.dedup.length) a ∧
        unsqueeze_axis (x.length + axes.dedup.length) a < (x.length + axes.dedup.length : Nat)) ∧
      ∃ s : VectorDims, s.length = x.length + axes.dedup.length ∧
        (∀ j, j < x.length + axes.dedup.length → s.getD j 0 =
          if axes.any (fun a =>
            decide (unsqueeze_axis (x.length + axes.dedup.length) a = (j : Int))) = true
          then 1 else 0) ∧
        fill_input_dims x s 0 = some y := by
  have hk : (order axes).length = axes.dedup.length :=
    length_eq_dedup_length (order axes) axes hnodup hmem
  have hanyeq : ∀ f : Int → Bool, (order axes).any f = axes.any f :=
    fun f => any_congr_of_mem_iff _ _ f hmem
  unfold UnsqueezeShapeInfer.infer
  simp only [hk]
  generalize x.length + axes.dedup.length = m
  cases hmark : mark_unsqueeze_axes m (order axes) (List.replicate m 0) with
  | none =>
    have hnot : ¬ ∀ a ∈ order axes, 0 ≤ unsqueeze_axis m a ∧ unsqueeze_axis m a < m := by
      rw [← mark_unsqueeze_axes_isSome m (order axes) (List.replicate m 0), hmark]
      simp
    constructor
    · intro h
      cases h
    · rintro ⟨hall, -⟩
      exact absurd (fun a ha => hall a ((hmem a).mp ha)) hnot
  | some s =>
    have hall : ∀ a ∈ order axes, 0 ≤ unsqueeze_axis m a ∧ unsqueeze_axis m a < m := by
      rw [← mark_unsqueeze_axes_isSome m (order axes) (List.replicate m 0), hmark]
      simp
    obtain ⟨hlen, hget⟩ := mark_unsqueeze_axes_some m (order axes) _ _ hmark
    simp only [List.length_replicate] at hlen hget
    have hget' : ∀ j, j < m → s.getD j 0 =
        if axes.any (fun a => decide (unsqueeze_axis m a = (j : Int))) = true then 1 else 0 := by
      intro j hj
      rw [hget j hj, hanyeq]
      simp [List.getD_eq_getElem?_getD, hj]
    have huniq : ∀ s' : VectorDims, s'.length = m →
        (∀ j, j < m → s'.getD j 0 =
          if axes.any (fun a => decide (unsqueeze_axis m a = (j : Int))) = true then 1 else 0) →
        s' = s := by
      intro s' hlen' hget''
      apply List.ext_getElem (by omega)
      intro i h1 h2
      have hi : i < m := by omega
      have e1 := hget'' i hi
      have e2 := hget' i hi
      rw [List.getD_eq_getElem?_getD, List.getElem?_eq_getElem h1, Option.getD_some] at e1
      rw [List.getD_eq_getElem?_getD, List.getElem?_eq_getElem h2, Option.getD_some] at e2
      rw [e1, e2]
    constructor
    · intro h
      refine ⟨fun a ha => hall a ((hmem a).mpr ha), s, hlen, hget', ?_⟩
      cases hfill : fill_input_dims x s 0 with
      | none => simp [hfill] at h
      | some out =>
        simp only [hfill, Except.ok.injEq] at h
        rw [h]
    · rintro ⟨_, s', hlen', hget'', hfill⟩
      rw [huniq s' hlen' hget''] at hfill
      simp [hfill]

/-- The distinct positions named by the pattern values are as many as the distinct
values exactly when no two distinct values name the same position. -/
theorem card_positions_eq_iff (m : Nat) (axes : List Int)
    (hrange : ∀ a ∈ axes, 0 ≤ unsqueeze_axis m a ∧ unsqueeze_axis m a < m) :
    (axes.dedup.map (fun a => (unsqueeze_axis m a).toNat)).toFinset.card ≤ axes.dedup.length ∧
    ((axes.dedup.map (fun a => (unsqueeze_axis m a).toNat)).toFinset.card = axes.dedup.length ↔
      ∀ a ∈ axes, ∀ b ∈ axes, unsqueeze_axis m a = unsqueeze_axis m b → a = b) := by
  have hle := List.toFinset_card_le (axes.dedup.map (fun a => (unsqueeze_axis m a).toNat))
  rw [List.length_map] at hle
  refine ⟨hle, ?_⟩
  have hcard : (axes.dedup.map (fun a => (unsqueeze_axis m a).toNat)).toFinset.card =
        axes.dedup.length ↔
      (axes.dedup.map (fun a => (unsqueeze_axis m a).toNat)).Nodup := by
    have := Multiset.toFinset_card_eq_card_iff_nodup
      (m := ((axes.dedup.map (fun a => (unsqueeze_axis m a).toNat) : List Nat) : Multiset Nat))
    simpa using this
  rw [hcard, List.nodup_map_iff_inj_on (List.nodup_dedup axes)]
  constructor
  · intro h a ha b hb hab
    exact h a (List.mem_dedup.mpr ha) b (List.mem_dedup.mpr hb) (by rw [hab])
  · intro h a ha b hb hab
    have ha' := List.mem_dedup.mp ha
    have hb' := List.mem_dedup.mp hb
    have h1 := hrange a ha'
    have h2 := hrange b hb'
    exact h a ha' b hb' (by omega)

/-- For a shape that holds 1 at the positions named by the axes and 0 elsewhere, the
entries 0 and the distinct named positions together are as many as the entries. -/
theorem count_zero_of_axes (x : VectorDims) (axes : List Int) (s : VectorDims)
    (hrange : ∀ a ∈ axes, 0 ≤ unsqueeze_axis (x.length + axes.dedup.length) a ∧
      unsqueeze_axis (x.length + axes.dedup.length) a < (x.length + axes.dedup.length : Nat))
    (hlen : s.length = x.length + axes.dedup.length)
    (hget : ∀ j, j < x.length + axes.dedup.length → s.getD j 0 =
      if axes.any (fun a =>
        decide (unsqueeze_axis (x.length + axes.dedup.length) a = (j : Int))) = true
      then 1 else 0) :
    s.count 0 + (axes.dedup.map
      (fun a => (unsqueeze_axis (x.length + axes.dedup.length) a).toNat)).toFinset.card =
      x.length + axes.dedup.length := by
  apply count_zero_marked _ axes.dedup s hlen
  · intro j hj
    rw [hget j hj, any_congr_of_mem_iff axes.dedup axes _ (fun a => List.mem_dedup)]
  · intro a ha
    exact hrange a (List.mem_dedup.mp ha)

/-- The output of a successful `UnsqueezeShapeInfer::infer`: every axis is in range,
the output has rank `n + k`, holds 1 at every named position, and without the named
positions it is the input shape. -/
theorem UnsqueezeShapeInfer_infer_output (order : List Int → List Int) (x : VectorDims)
    (axes : List Int) (hnodup : (order axes).Nodup) (hmem : ∀ a, a ∈ order axes ↔ a ∈ axes)
    (y : VectorDims) (hy : UnsqueezeShapeInfer.infer order x axes = Except.ok y) :
    (∀ a ∈ axes, 0 ≤ unsqueeze_axis (x.length + axes.dedup.length) a ∧
      unsqueeze_axis (x.length + axes.dedup.length) a < (x.length + axes.dedup.length : Nat)) ∧
    y.length = x.length + axes.dedup.length ∧
    (∀ a ∈ axes, y.getD (unsqueeze_axis (x.length + axes.dedup.length) a).toNat 0 = 1) ∧
    remove_positions
      (fun i => axes.any (fun a =>
        decide (unsqueeze_axis (x.length + axes.dedup.length) a = (i : Int)))) y = x := by
  obtain ⟨hrange, s, hlen, hget, hfill⟩ :=
    (UnsqueezeShapeInfer_infer_eq_ok_iff order x axes hnodup hmem y).mp hy
  have hc := count_zero_of_axes x axes s hrange hlen hget
  obtain ⟨hle, -⟩ := card_positions_eq_iff (x.length + axes.dedup.length) axes hrange
  have hrem : ∀ j, j < s.length →
      (fun i : Nat => axes.any (fun a =>
        decide (unsqueeze_axis (x.length + axes.dedup.length) a = (i : Int)))) (0 + j) =
        decide (s.getD j 0 ≠ 0) := by
    intro j hj
    have e := hget j (by omega)
    show axes.any (fun a =>
      decide (unsqueeze_axis (x.length + axes.dedup.length) a = ((0 + j : Nat) : Int))) =
        decide (s.getD j 0 ≠ 0)
    rw [Nat.zero_add, e]
    generalize axes.any (fun a =>
      decide (unsqueeze_axis (x.length + axes.dedup.length) a = (j : Int))) = b
    cases b <;> simp
  obtain ⟨h1, h2, h3⟩ := fill_input_dims_some x
    (fun i : Nat => axes.any (fun a =>
      decide (unsqueeze_axis (x.length + axes.dedup.length) a = (i : Int)))) s y 0 0 hfill hrem
  refine ⟨hrange, by omega, ?_, ?_⟩
  · intro a ha
    have hr := hrange a ha
    have hj : (unsqueeze_axis (x.length + axes.dedup.length) a).toNat <
        x.length + axes.dedup.length := by omega
    have hs1 : s.getD (unsqueeze_axis (x.length + axes.dedup.length) a).toNat 0 = 1 := by
      rw [hget _ hj, if_pos]
      simp only [List.any_eq_true, decide_eq_true_eq]
      exact ⟨a, ha, by omega⟩
    rw [h2 _ (by omega) (by omega), hs1]
  · unfold remove_positions
    rw [h3, List.drop_zero, List.take_of_length_le (by omega)]

/-- Claim C12: `UnsqueezeShapeInfer::infer` works on the distinct axes values. With
`n` input dims and `k` distinct values it succeeds exactly when every axis, after
adding `n + k` to a negative value, lies in `[0, n + k)` and no two distinct values
name the same position. On success the output has rank `n + k`, holds 1 at every
named position and, at the other positions, the input dims in their order. In every
other case it raises the conflict error. The result depends neither on the order in
which the distinct values are visited nor on how often a value is given. -/
theorem UnsqueezeShapeInfer_infer_succeeds_iff (order : List Int → List Int) (x : VectorDims)
    (axes : List Int) (hnodup : (order axes).Nodup) (hmem : ∀ a, a ∈ order axes ↔ a ∈ axes) :
    ((∃ y, UnsqueezeShapeInfer.infer order x axes = Except.ok y) ↔
      (∀ a ∈ axes, 0 ≤ unsqueeze_axis (x.length + axes.dedup.length) a ∧
        unsqueeze_axis (x.length + axes.dedup.length) a < (x.length + axes.dedup.length : Nat)) ∧
      (∀ a ∈ axes, ∀ b ∈ axes,
        unsqueeze_axis (x.length + axes.dedup.length) a =
          unsqueeze_axis (x.length + axes.dedup.length) b → a = b)) ∧
    (∀ y, UnsqueezeShapeInfer.infer order x axes = Except.ok y →
      y.length = x.length + axes.dedup.length ∧
      (∀ a ∈ axes, y.getD (unsqueeze_axis (x.length + axes.dedup.length) a).toNat 0 = 1) ∧
      remove_positions
        (fun i => axes.any (fun a =>
          decide (unsqueeze_axis (x.length + axes.dedup.length) a = (i : Int)))) y = x) ∧
    ((¬ ∃ y, UnsqueezeShapeInfer.infer order x axes = Except.ok y) →
      UnsqueezeShapeInfer.infer order x axes =
        Except.error (UnsqueezeError.conflicts x axes)) ∧
    (∀ (order' : List Int → List Int) (axes' : List Int), (order' axes').Nodup →
      (∀ a, a ∈ order' axes' ↔ a ∈ axes') → (∀ a, a ∈ axes' ↔ a ∈ axes) →
      ∀ y, UnsqueezeShapeInfer.infer order' x axes' = Except.ok y ↔
        UnsqueezeShapeInfer.infer order x axes = Except.ok y) := by
  have core := UnsqueezeShapeInfer_infer_eq_ok_iff order x axes hnodup hmem
  refine ⟨?_, ?_, ?_, ?_⟩
  · constructor
    · rintro ⟨y, hy⟩
      obtain ⟨hrange, s, hlen, hget, hfill⟩ := (core y).mp hy
      refine ⟨hrange, ?_⟩
      have hc := count_zero_of_axes x axes s hrange hlen hget
      obtain ⟨hle, hiff⟩ := card_positions_eq_iff (x.length + axes.dedup.length) axes hrange
      have hsome : (fill_input_dims x s 0).isSome = true := by simp [hfill]
      rw [fill_input_dims_isSome x s 0 (Nat.zero_le _)] at hsome
      apply hiff.mp
      omega
    · rintro ⟨hrange, hinj⟩
      have hall : ∀ a ∈ order axes, 0 ≤ unsqueeze_axis (x.length + axes.dedup.length) a ∧
          unsqueeze_axis (x.length + axes.dedup.length) a <
            (x.length + axes.dedup.length : Nat) :=
        fun a ha => hrange a ((hmem a).mp ha)
      have hsome := (mark_unsqueeze_axes_isSome (x.length + axes.dedup.length) (order axes)
        (List.replicate (x.length + axes.dedup.length) 0)).mpr hall
      obtain ⟨s, hs⟩ := Option.isSome_iff_exists.mp hsome
      obtain ⟨hlen, hget⟩ := mark_unsqueeze_axes_some _ _ _ _ hs
      simp only [List.length_replicate] at hlen hget
      have hget' : ∀ j, j < x.length + axes.dedup.length → s.getD j 0 =
          if axes.any (fun a =>
            decide (unsqueeze_axis (x.length + axes.dedup.length) a = (j : Int))) = true
          then 1 else 0 := by
        intro j hj
        rw [hget j hj, any_congr_of_mem_iff (order axes) axes _ hmem]
        simp [List.getD_eq_getElem?_getD, hj]
      have hc := count_zero_of_axes x axes s hrange hlen hget'
      obtain ⟨hle, hiff⟩ := card_positions_eq_iff (x.length + axes.dedup.length) axes hrange
      have hcard := hiff.mpr hinj
      have hfill : (fill_input_dims x s 0).isSome = true := by
        rw [fill_input_dims_isSome x s 0 (Nat.zero_le _)]
        omega
      obtain ⟨y, hy⟩ := Option.isSome_iff_exists.mp hfill
      exact ⟨y, (core y).mpr ⟨hrange, s, hlen, hget', hy⟩⟩
  · intro y hy
    exact (UnsqueezeShapeInfer_infer_output order x axes hnodup hmem y hy).2
  · intro hno
    unfold UnsqueezeShapeInfer.infer at hno ⊢
    simp only
    split
    · rfl
    · split
      · rfl
      · rename_i hm _ out hf
        exfalso
        apply hno
        exact ⟨out, by simp [hm, hf]⟩
  · intro order' axes' hnodup' hmem' hsame y
    have core' := UnsqueezeShapeInfer_infer_eq_ok_iff order' x axes' hnodup' hmem'
    have hk : axes'.dedup.length = axes.dedup.length :=
      (length_eq_dedup_length axes'.dedup axes (List.nodup_dedup _)
        (fun a => by rw [List.mem_dedup, hsame a])).symm ▸ rfl
    rw [core' y, core y, hk]
    have hany : ∀ f : Int → Bool, axes'.any f = axes.any f :=
      fun f => any_congr_of_mem_iff _ _ f hsame
    simp only [hany]
    constructor
    · rintro ⟨hr, rest⟩
      exact ⟨fun a ha => hr a ((hsame a).mpr ha), rest⟩
    · rintro ⟨hr, rest⟩
      exact ⟨fun a ha => hr a ((hsame a).mp ha), rest⟩

/-- Evaluation of C12: from `[2, 3]` the axes `[0, -1, 0]` give `[1, 2, 3, 1]`, and
the axes `[0, -4]`, which name the same position, raise the error. -/
theorem UnsqueezeShapeInfer_infer_succeeds_iff_witness :
    UnsqueezeShapeInfer.infer List.dedup [2, 3] [0, -1, 0] = Except.ok [1, 2, 3, 1] ∧
    UnsqueezeShapeInfer.infer List.dedup [2, 3] [0, -4] =
      Except.error (UnsqueezeError.conflicts [2, 3] [0, -4]) ∧
    ((∃ y, UnsqueezeShapeInfer.infer List.dedup [2, 3] [0, -1, 0] = Except.ok y) ↔
      (∀ a ∈ ([0, -1, 0] : List Int),
        0 ≤ unsqueeze_axis (([2, 3] : VectorDims).length + ([0, -1, 0] : List Int).dedup.length) a ∧
        unsqueeze_axis (([2, 3] : VectorDims).length + ([0, -1, 0] : List Int).dedup.length) a <
          ((([2, 3] : VectorDims).length + ([0, -1, 0] : List Int).dedup.length : Nat) : Int)) ∧
      (∀ a ∈ ([0, -1, 0] : List Int), ∀ b ∈ ([0, -1, 0] : List Int),
        unsqueeze_axis (([2, 3] : VectorDims).length + ([0, -1, 0] : List Int).dedup.length) a =
          unsqueeze_axis (([2, 3] : VectorDims).length + ([0, -1, 0] : List Int).dedup.length) b →
        a = b)) :=
  ⟨rfl, rfl,
    (UnsqueezeShapeInfer_infer_succeeds_iff List.dedup [2, 3] [0, -1, 0]
      (List.nodup_dedup _) (fun _ => List.mem_dedup)).1⟩

/-- Removing positions by two tests that agree on the positions of the shape gives
the same shape. -/
theorem remove_positions_from_congr (p q : Nat → Bool) :
    ∀ (l : VectorDims) (start : Nat), (∀ j, j < l.length → p (start + j) = q (start + j)) →
      remove_positions_from p start l = remove_positions_from q start l := by
  intro l
  induction l with
  | nil => intro start _; simp [remove_positions_from]
  | cons d ds ih =>
    intro start h
    have h0 := h 0 (by simp)
    simp only [Nat.add_zero] at h0
    have hrest := ih (start + 1) (by
      intro j hj
      have := h (j + 1) (by simpa using hj)
      rw [show start + 1 + j = start + (j + 1) by omega]
      exact this)
    simp only [remove_positions_from, h0, hrest]

/-- With an axes tensor of rank at least 1, `SqueezeShapeInfer::infer` returns the
shape without the positions that hold a 1 and are named by an axis. -/
theorem SqueezeShapeInfer_infer_of_axes (x : VectorDims) (dims : VectorDims) (data : List Int)
    (hd : dims ≠ []) :
    SqueezeShapeInfer.infer x (some ⟨dims, data⟩) =
      { dims := [remove_positions
          (fun i => decide (x.getD i 0 = 1) &&
            data.any (fun a => decide (squeeze_axis x.length a = (i : Int)))) x],
        status := ShapeInferStatus.success } := by
  obtain ⟨h1, h2⟩ := squeeze_mask_fold x data (List.replicate x.length false) (by simp)
  have hmask := push_unmasked_eq_remove_positions_from
    (fun i => decide (x.getD i 0 = 1) &&
      data.any (fun a => decide (squeeze_axis x.length a = (i : Int)))) x _ 0 h1 (by
    intro j hj
    rw [h2 j hj]
    simp [List.getD_eq_getElem?_getD, hj])
  simp [SqueezeShapeInfer.infer, hd, hmask, remove_positions]

/-- Claim C16: squeeze undoes unsqueeze. For every input shape `x` and every axes
tensor of rank at least 1 on which `UnsqueezeShapeInfer::infer` succeeds with
result `y`, `SqueezeShapeInfer::infer` applied to `y` with the same axes returns
exactly `x`. -/
theorem SqueezeShapeInfer_infer_undoes_unsqueeze (order : List Int → List Int)
    (x : VectorDims) (dims : VectorDims) (axes : List Int) (y : VectorDims)
    (hnodup : (order axes).Nodup) (hmem : ∀ a, a ∈ order axes ↔ a ∈ axes)
    (hd : dims ≠ []) (hy : UnsqueezeShapeInfer.infer order x axes = Except.ok y) :
    SqueezeShapeInfer.infer y (some ⟨dims, axes⟩) =
      { dims := [x], status := ShapeInferStatus.success } := by
  obtain ⟨hrange, hlen, hone, hrem⟩ :=
    UnsqueezeShapeInfer_infer_output order x axes hnodup hmem y hy
  rw [SqueezeShapeInfer_infer_of_axes y dims axes hd]
  congr 2
  rw [← hrem]
  unfold remove_positions
  apply remove_positions_from_congr
  intro j hj
  simp only [Nat.zero_add, hlen]
  have hsq : ∀ a, squeeze_axis (x.length + axes.dedup.length) a =
      unsqueeze_axis (x.length + axes.dedup.length) a := fun a => rfl
  simp only [hsq]
  by_cases hany : axes.any (fun a =>
      decide (unsqueeze_axis (x.length + axes.dedup.length) a = (j : Int))) = true
  · rw [hany, Bool.and_true]
    simp only [List.any_eq_true, decide_eq_true_eq] at hany
    obtain ⟨a, ha, haj⟩ := hany
    have := hone a ha
    have htn : (unsqueeze_axis (x.length + axes.dedup.length) a).toNat = j := by omega
    rw [htn] at this
    exact decide_eq_true this
  · simp only [Bool.not_eq_true] at hany
    rw [hany, Bool.and_false]

/-- Evaluation of C16: unsqueezing `[2, 3]` at the axes `[0, -1]` gives
`[1, 2, 3, 1]`, and squeezing that at the same axes gives `[2, 3]` back. -/
theorem SqueezeShapeInfer_infer_undoes_unsqueeze_witness :
    UnsqueezeShapeInfer.infer List.dedup [2, 3] [0, -1] = Except.ok [1, 2, 3, 1] ∧
    SqueezeShapeInfer.infer [1, 2, 3, 1] (some ⟨[2], [0, -1]⟩) =
      { dims := [[2, 3]], status := ShapeInferStatus.success } :=
  ⟨rfl, SqueezeShapeInfer_infer_undoes_unsqueeze List.dedup [2, 3] [2] [0, -1] [1, 2, 3, 1]
    (List.nodup_dedup _) (fun _ => List.mem_dedup) (by decide) rfl⟩

end node
end intel_cpu
end ov

namespace ov
namespace intel_cpu
namespace node

/-! ## Reshape shape inference: the loops -/

/-- Reading the entry that was just set. -/
theorem getD_set_self (l : List Nat) (i v : Nat) (h : i < l.length) :
    (l.set i v).getD i 0 = v := by
  simp [List.getD_eq_getElem?_getD, h]

/-- Reading an entry other than the one that was set. -/
theorem getD_set_of_ne (l : List Nat) (i j v : Nat) (h : i ≠ j) :
    (l.set i v).getD j 0 = l.getD j 0 := by
  simp [List.getD_eq_getElem?_getD, List.getElem?_set_ne h]

/-- One more iteration of the first loop of `ReshapeShapeInfer::infer`. -/
theorem scan_pattern_succ (sz : Bool) (x : VectorDims) (pat : List Int) (i : Nat) :
    scan_pattern sz x pat (i + 1) = scan_pattern_step sz x pat (scan_pattern sz x pat i) i := by
  simp [scan_pattern, List.range_succ, List.foldl_append]

/-- The locals of `ReshapeShapeInfer::infer` after `i` iterations of its first loop:
`outputShape` holds the scanned dims below `i` and 0 from `i` on, `outputProduct` is the
product of the scanned factors modulo `2 ^ 64`, `minusOneCount` counts the entries -1
below `i` and `minusOneIdx` is -1 or the position of an entry -1, the only one when
`minusOneCount` is at most 1. -/
theorem scan_pattern_invariant (sz : Bool) (x : VectorDims) (pat : List Int) :
    ∀ i, i ≤ pat.length →
      (scan_pattern sz x pat i).outputShape.length = pat.length ∧
      (∀ j, j < pat.length → (scan_pattern sz x pat i).outputShape.getD j 0 =
        if j < i then scanned_dim sz x pat j else 0) ∧
      (scan_pattern sz x pat i).outputProduct =
        ((List.range i).map (scanned_factor sz x pat)).prod % 2 ^ 64 ∧
      (scan_pattern sz x pat i).minusOneCount =
        (((List.range i).filter (fun j => decide (pat.getD j 0 = -1))).length : Int) ∧
      (-1 ≤ (scan_pattern sz x pat i).minusOneIdx ∧ (scan_pattern sz x pat i).minusOneIdx < i) ∧
      ((∀ j, j < i → pat.getD j 0 ≠ -1) → (scan_pattern sz x pat i).minusOneIdx = -1) ∧
      (0 ≤ (scan_pattern sz x pat i).minusOneIdx →
        pat.getD (scan_pattern sz x pat i).minusOneIdx.toNat 0 = -1) ∧
      ((scan_pattern sz x pat i).minusOneCount ≤ 1 → ∀ j, j < i → pat.getD j 0 = -1 →
        (scan_pattern sz x pat i).minusOneIdx = (j : Int)) := by
  intro i
  induction i with
  | zero =>
    intro _
    simp [scan_pattern, initial_scan, List.getD_eq_getElem?_getD]
  | succ i ih =>
    intro hi
    obtain ⟨h1, h2, h3, h4, h5, h6, h7, h8⟩ := ih (by omega)
    rw [scan_pattern_succ]
    have hfilter : (List.range (i + 1)).filter (fun j => decide (pat.getD j 0 = -1)) =
        (List.range i).filter (fun j => decide (pat.getD j 0 = -1)) ++
          (if pat.getD i 0 = -1 then [i] else []) := by
      rw [List.range_succ, List.filter_append]
      by_cases h : pat.getD i 0 = -1 <;> simp [-List.getD_eq_getElem?_getD, h]
    have hprod : ((List.range (i + 1)).map (scanned_factor sz x pat)).prod =
        ((List.range i).map (scanned_factor sz x pat)).prod * scanned_factor sz x pat i := by
      rw [List.range_succ, List.map_append, List.prod_append]
      simp
    by_cases hc : pat.getD i 0 = 0 ∧ sz = true ∧ i < x.length
    · -- the input dim is copied
      have hcop : is_copied sz x pat i := hc
      have hne : pat.getD i 0 ≠ -1 := by rw [hc.1]; decide
      simp only [scan_pattern_step, if_pos hc]
      refine ⟨by simp [h1], ?_, ?_, ?_, ⟨h5.1, by omega⟩, ?_, h7, ?_⟩
      · intro j hj
        by_cases hji : j = i
        · subst hji
          rw [getD_set_self _ _ _ (by omega)]
          simp [-List.getD_eq_getElem?_getD, scanned_dim, hcop]
        · have := h2 j hj
          rw [getD_set_of_ne _ _ _ _ (Ne.symm hji), this]
          by_cases hlt : j < i
          · simp [hlt, Nat.lt_succ_of_lt hlt]
          · have : ¬ j < i + 1 := by omega
            simp [hlt, this]
      · rw [h3, hprod]
        simp [-List.getD_eq_getElem?_getD, scanned_factor, hcop]
      · rw [h4, hfilter, if_neg hne]
        simp
      · intro hall
        exact h6 (fun j hj => hall j (by omega))
      · intro hcount j hj hm
        have hji : j ≠ i := fun h => hne (h ▸ hm)
        exact h8 hcount j (by omega) hm
    · by_cases hm1 : pat.getD i 0 = -1
      · -- the entry is -1
        simp only [scan_pattern_step, if_neg hc, if_pos hm1]
        refine ⟨h1, ?_, ?_, ?_, ⟨by omega, by omega⟩, ?_, ?_, ?_⟩
        · intro j hj
          rw [h2 j hj]
          by_cases hji : j = i
          · subst hji
            have hncop : ¬ is_copied sz x pat j := hc
            simp [-List.getD_eq_getElem?_getD, scanned_dim, hncop, hm1]
          · by_cases hlt : j < i
            · simp [hlt, Nat.lt_succ_of_lt hlt]
            · have : ¬ j < i + 1 := by omega
              simp [hlt, this]
        · have hncop : ¬ is_copied sz x pat i := hc
          rw [h3, hprod]
          simp [-List.getD_eq_getElem?_getD, scanned_factor, hncop, hm1]
        · rw [h4, hfilter, if_pos hm1]
          simp
        · intro hall
          exact absurd hm1 (hall i (by omega))
        · intro _
          simpa using hm1
        · intro hcount j hj hm
          by_cases hji : j = i
          · rw [hji]
          · exfalso
            rw [h4] at hcount
            have hmem : j ∈ (List.range i).filter (fun j => decide (pat.getD j 0 = -1)) := by
              simp only [List.mem_filter, List.mem_range, decide_eq_true_eq]
              exact ⟨by omega, hm⟩
            have hpos := List.length_pos_of_mem hmem
            omega
      · -- the entry is a dimension
        have hncop : ¬ is_copied sz x pat i := hc
        simp only [scan_pattern_step, if_neg hc, if_neg hm1]
        refine ⟨by simp [h1], ?_, ?_, ?_, ⟨h5.1, by omega⟩, ?_, h7, ?_⟩
        · intro j hj
          by_cases hji : j = i
          · subst hji
            rw [getD_set_self _ _ _ (by omega)]
            simp [-List.getD_eq_getElem?_getD, scanned_dim, hncop, hm1]
          · have := h2 j hj
            rw [getD_set_of_ne _ _ _ _ (Ne.symm hji), this]
            by_cases hlt : j < i
            · simp [hlt, Nat.lt_succ_of_lt hlt]
            · have : ¬ j < i + 1 := by omega
              simp [hlt, this]
        · rw [h3, hprod]
          simp only [scanned_factor, if_neg hncop, if_neg hm1, to_size_t]
          rw [Nat.mod_mul_mod]
        · rw [h4, hfilter, if_neg hm1]
          simp
        · intro hall
          exact h6 (fun j hj => hall j (by omega))
        · intro hcount j hj hm
          have hji : j ≠ i := fun h => hm1 (h ▸ hm)
          exact h8 hcount j (by omega) hm

/-- The second loop of `ReshapeShapeInfer::infer` computes the product of the input
factors modulo `2 ^ 64`. -/
theorem input_product_fold (sz : Bool) (x : VectorDims) (pat : List Int) :
    ∀ i, (List.range i).foldl (input_product_step sz x pat) 1 =
      ((List.range i).map (input_factor sz x pat)).prod % 2 ^ 64 := by
  intro i
  induction i with
  | zero => simp
  | succ i ih =>
    rw [List.range_succ, List.foldl_append, List.map_append, List.prod_append, ih]
    simp only [List.foldl_cons, List.foldl_nil, List.map_cons, List.map_nil, List.prod_cons,
      List.prod_nil, Nat.mul_one, input_product_step, input_factor]
    by_cases h : i < pat.length ∧ pat.getD i 0 = 0 ∧ sz = true
    · rw [if_pos h, if_pos h, Nat.mul_one]
    · simp only [if_neg h, to_size_t]
      rw [Nat.mod_mul_mod]

end node
end intel_cpu
end ov

namespace ov
namespace intel_cpu
namespace node

/-- Method `ReshapeShapeInfer::infer` in terms of `checked_output_shape`. -/
theorem ReshapeShapeInfer_infer_eq (sz : Bool) (x : VectorDims) (pat : List Int) :
    ReshapeShapeInfer.infer sz x pat =
      if (scan_pattern sz x pat pat.length).minusOneCount ≤ 1 ∧
          signed_to_size_t (accumulate_multiplies x) =
            signed_to_size_t (accumulate_multiplies (checked_output_shape sz x pat)) then
        Except.ok (checked_output_shape sz x pat)
      else Except.error (ReshapeError.conflicts x pat) := rfl

/-- The conversion of a `size_t` value to `int` keeps the low 32 bits only. -/
theorem size_t_to_int_congr (a b : Nat) (h : a % 2 ^ 32 = b % 2 ^ 32) :
    size_t_to_int a = size_t_to_int b := by
  unfold size_t_to_int
  rw [h]

/-- Converting an `int` back to `size_t` keeps its low 32 bits. -/
theorem signed_to_size_t_size_t_to_int_mod (p : Nat) :
    signed_to_size_t (size_t_to_int p) % 2 ^ 32 = p % 2 ^ 32 := by
  unfold signed_to_size_t size_t_to_int
  split_ifs <;> omega

/-- One step of `std::accumulate` with an `int` accumulator. -/
theorem accumulate_step (p d : Nat) :
    size_t_to_int (to_size_t (signed_to_size_t (size_t_to_int p) * d)) =
      size_t_to_int (p * d) := by
  apply size_t_to_int_congr
  unfold to_size_t
  rw [Nat.mod_mod_of_dvd _ (by norm_num : 2 ^ 32 ∣ 2 ^ 64), Nat.mul_mod,
    signed_to_size_t_size_t_to_int_mod, ← Nat.mul_mod]

/-- The `int` accumulator of `std::accumulate` holds the product of the dims, reduced
to 32 bits. -/
theorem accumulate_multiplies_eq (v : VectorDims) :
    accumulate_multiplies v = size_t_to_int v.prod := by
  have h : ∀ (v : VectorDims) (p : Nat),
      v.foldl (fun acc d => size_t_to_int (to_size_t (signed_to_size_t acc * d)))
        (size_t_to_int p) = size_t_to_int (p * v.prod) := by
    intro v
    induction v with
    | nil => intro p; simp
    | cons d v ih =>
      intro p
      rw [List.foldl_cons, accumulate_step, ih, List.prod_cons, Nat.mul_assoc]
  have h1 : (1 : Int) = size_t_to_int 1 := by decide
  unfold accumulate_multiplies
  rw [h1, h v 1, Nat.one_mul]

/-- The comparison of the final check of `ReshapeShapeInfer::infer` compares the low
32 bits of the two products. -/
theorem accumulate_multiplies_eq_iff (v w : VectorDims) :
    signed_to_size_t (accumulate_multiplies v) = signed_to_size_t (accumulate_multiplies w) ↔
      v.prod % 2 ^ 32 = w.prod % 2 ^ 32 := by
  rw [accumulate_multiplies_eq, accumulate_multiplies_eq]
  constructor
  · intro h
    rw [← signed_to_size_t_size_t_to_int_mod v.prod, ← signed_to_size_t_size_t_to_int_mod w.prod, h]
  · intro h
    rw [size_t_to_int_congr _ _ h]

/-- Method `ReshapeShapeInfer::infer` returns a shape exactly when the pattern has at
most one entry -1 and the low 32 bits of the products of the input dims and of the
dims of `checked_output_shape` agree; the shape is then `checked_output_shape`. -/
theorem ReshapeShapeInfer_infer_eq_ok_iff (sz : Bool) (x : VectorDims) (pat : List Int)
    (y : VectorDims) :
    ReshapeShapeInfer.infer sz x pat = Except.ok y ↔
      (scan_pattern sz x pat pat.length).minusOneCount ≤ 1 ∧
      x.prod % 2 ^ 32 = (checked_output_shape sz x pat).prod % 2 ^ 32 ∧
      y = checked_output_shape sz x pat := by
  rw [ReshapeShapeInfer_infer_eq, ← accumulate_multiplies_eq_iff]
  by_cases hc : (scan_pattern sz x pat pat.length).minusOneCount ≤ 1 ∧
      signed_to_size_t (accumulate_multiplies x) =
        signed_to_size_t (accumulate_multiplies (checked_output_shape sz x pat))
  · rw [if_pos hc]
    constructor
    · intro h
      injection h with h
      exact ⟨hc.1, hc.2, h.symm⟩
    · rintro ⟨-, -, h⟩
      rw [h]
  · rw [if_neg hc]
    constructor
    · intro h
      cases h
    · rintro ⟨h1, h2, -⟩
      exact absurd ⟨h1, h2⟩ hc

/-- Reading a list through `getD` at every index gives the list back. -/
theorem range_map_getD {α β : Type} (l : List α) (d : α) (f : α → β) :
    (List.range l.length).map (fun j => f (l.getD j d)) = l.map f := by
  apply List.ext_getElem (by simp)
  intro i h1 h2
  have hi : i < l.length := by simpa using h1
  simp [List.getD_eq_getElem?_getD, hi]

/-- The entries of `outputShape` after the first loop of `ReshapeShapeInfer::infer`. -/
theorem scan_pattern_outputShape (sz : Bool) (x : VectorDims) (pat : List Int) :
    (scan_pattern sz x pat pat.length).outputShape =
      (List.range pat.length).map (scanned_dim sz x pat) := by
  obtain ⟨h1, h2, -⟩ := scan_pattern_invariant sz x pat pat.length (le_refl _)
  apply List.ext_getElem (by simp [h1])
  intro i hi1 hi2
  have hi : i < pat.length := by simpa using hi2
  have := h2 i hi
  rw [if_pos hi, List.getD_eq_getElem _ _ hi1] at this
  simp [this]

/-- The number of entries -1 of a pattern, counted by index. -/
theorem filter_range_eq_countP (pat : List Int) :
    ((List.range pat.length).filter (fun j => decide (pat.getD j 0 = -1))).length =
      pat.countP (fun v => decide (v = -1)) := by
  have hA : (List.range pat.length).map (fun j => pat.getD j 0) = pat := by
    have := range_map_getD pat 0 (fun v => v)
    simpa using this
  rw [← List.countP_eq_length_filter]
  conv_rhs => rw [← hA, List.countP_map]
  rfl

/-- A product in which some factors are replaced by 1 is the product of the others. -/
theorem prod_map_ite_one (l : List Nat) (p : Nat → Prop) [DecidablePred p] (f : Nat → Nat) :
    (l.map (fun j => if p j then 1 else f j)).prod =
      ((l.filter (fun j => decide (¬ p j))).map f).prod := by
  induction l with
  | nil => simp
  | cons a l ih =>
    by_cases h : p a <;> simp [List.filter_cons, h, ih]

end node
end intel_cpu
end ov

namespace ov
namespace intel_cpu
namespace node

/-- At a position whose pattern entry is not -1, `checked_output_shape` holds the dim
the first loop of `ReshapeShapeInfer::infer` wrote there. -/
theorem checked_output_shape_getD_of_ne (sz : Bool) (x : VectorDims) (pat : List Int) (i : Nat)
    (hi : i < pat.length) (hne : pat.getD i 0 ≠ -1) :
    (checked_output_shape sz x pat).getD i 0 = scanned_dim sz x pat i := by
  obtain ⟨-, h2, -, -, -, -, h7, -⟩ := scan_pattern_invariant sz x pat pat.length (le_refl _)
  have hbase := h2 i hi
  rw [if_pos hi] at hbase
  have hset : 0 ≤ (scan_pattern sz x pat pat.length).minusOneIdx → ∀ v,
      ((scan_pattern sz x pat pat.length).outputShape.set
        (scan_pattern sz x pat pat.length).minusOneIdx.toNat v).getD i 0 =
        scanned_dim sz x pat i := by
    intro h0 v
    have hidx : (scan_pattern sz x pat pat.length).minusOneIdx.toNat ≠ i := by
      intro heq
      exact hne (heq ▸ h7 h0)
    rw [getD_set_of_ne _ _ _ _ hidx, hbase]
  unfold checked_output_shape
  by_cases h0 : 0 ≤ (scan_pattern sz x pat pat.length).minusOneIdx
  · by_cases hp : (scan_pattern sz x pat pat.length).outputProduct ≠ 0
    · simp only [if_pos h0, if_pos hp]
      exact hset h0 _
    · simp only [if_pos h0, if_neg hp]
      exact hset h0 _
  · simp only [if_neg h0]
    exact hbase

/-- At the position of the only entry -1 of the pattern, `checked_output_shape` holds
the quotient of the `inputProduct` of the second loop of `ReshapeShapeInfer::infer` by
the `outputProduct` of the first, or 0 when that `outputProduct` is 0. -/
theorem checked_output_shape_getD_minus_one (sz : Bool) (x : VectorDims) (pat : List Int)
    (i : Nat) (hcount : (scan_pattern sz x pat pat.length).minusOneCount ≤ 1)
    (hi : i < pat.length) (hm : pat.getD i 0 = -1) :
    (checked_output_shape sz x pat).getD i 0 =
      if ((List.range pat.length).map (scanned_factor sz x pat)).prod % 2 ^ 64 ≠ 0 then
        ((List.range x.length).map (input_factor sz x pat)).prod % 2 ^ 64 /
          (((List.range pat.length).map (scanned_factor sz x pat)).prod % 2 ^ 64)
      else 0 := by
  obtain ⟨h1, -, h3, -, -, -, -, h8⟩ := scan_pattern_invariant sz x pat pat.length (le_refl _)
  have hidx := h8 hcount i hi hm
  have h0 : 0 ≤ (scan_pattern sz x pat pat.length).minusOneIdx := by omega
  have ht : (scan_pattern sz x pat pat.length).minusOneIdx.toNat = i := by omega
  have hlen : i < (scan_pattern sz x pat pat.length).outputShape.length := by omega
  unfold checked_output_shape
  simp only [if_pos h0, ht, input_product_fold, h3]
  by_cases hp : ((List.range pat.length).map (scanned_factor sz x pat)).prod % 2 ^ 64 ≠ 0
  · rw [if_pos hp, if_pos hp, getD_set_self _ _ _ hlen]
  · rw [if_neg hp, if_neg hp, getD_set_self _ _ _ hlen]

/-- The factors of the second loop of `ReshapeShapeInfer::infer` multiply to the
product of the input dims at the positions the loop does not skip. -/
theorem input_factor_prod (sz : Bool) (x : VectorDims) (pat : List Int) :
    ((List.range x.length).map (input_factor sz x pat)).prod =
      (((List.range x.length).filter
          (fun j => decide (¬ (j < pat.length ∧ pat.getD j 0 = 0 ∧ sz = true)))).map
        (fun j => x.getD j 0)).prod := by
  rw [← prod_map_ite_one]
  rfl

end node
end intel_cpu
end ov

namespace ov
namespace intel_cpu
namespace node

/-- C15. Whenever `ReshapeShapeInfer::infer` succeeds: with `special_zero` set, every
index `i` below the input rank with pattern entry 0 has output dim `i` equal to input
dim `i`; an entry -1 of the pattern is inferred as `inputProduct / outputProduct` (0
when `outputProduct` is 0), where `inputProduct` is the product, as a `size_t`, of the
input dims at the positions that are not copied, and `outputProduct` the product of the
scanned factors; and a pattern entry 0 at an index not below the input rank, or with
`special_zero` not set, gives output dim 0. -/
theorem ReshapeShapeInfer_infer_special_zero (sz : Bool) (x : VectorDims) (pat : List Int)
    (y : VectorDims) (h : ReshapeShapeInfer.infer sz x pat = Except.ok y) :
    (sz = true → ∀ i, i < x.length → i < pat.length → pat.getD i 0 = 0 →
      y.getD i 0 = x.getD i 0) ∧
    (∀ i, i < pat.length → pat.getD i 0 = -1 →
      y.getD i 0 =
        if ((List.range pat.length).map (scanned_factor sz x pat)).prod % 2 ^ 64 ≠ 0 then
          (((List.range x.length).filter
              (fun j => decide (¬ (j < pat.length ∧ pat.getD j 0 = 0 ∧ sz = true)))).map
            (fun j => x.getD j 0)).prod % 2 ^ 64 /
            (((List.range pat.length).map (scanned_factor sz x pat)).prod % 2 ^ 64)
        else 0) ∧
    (∀ i, i < pat.length → pat.getD i 0 = 0 → (sz = false ∨ x.length ≤ i) →
      y.getD i 0 = 0) := by
  obtain ⟨hcount, -, hy⟩ := (ReshapeShapeInfer_infer_eq_ok_iff sz x pat y).1 h
  subst hy
  refine ⟨?_, ?_, ?_⟩
  · intro hsz i hix hip h0
    rw [checked_output_shape_getD_of_ne sz x pat i hip (by rw [h0]; decide)]
    have hcop : is_copied sz x pat i := ⟨h0, hsz, hix⟩
    unfold scanned_dim
    rw [if_pos hcop]
  · intro i hip hm
    rw [checked_output_shape_getD_minus_one sz x pat i hcount hip hm, input_factor_prod]
  · intro i hip h0 hor
    rw [checked_output_shape_getD_of_ne sz x pat i hip (by rw [h0]; decide)]
    have hcop : ¬ is_copied sz x pat i := by
      rintro ⟨-, hsz, hix⟩
      rcases hor with hf | hge
      · rw [hf] at hsz
        cases hsz
      · omega
    unfold scanned_dim
    rw [if_neg hcop, h0]
    decide

set_option maxRecDepth 100000 in
/-- C15, witness: input shape `[2, 3, 4]` and pattern `[0, -1, 2]` with `special_zero`
set give `[2, 6, 2]`. -/
theorem ReshapeShapeInfer_infer_special_zero_witness :
    ReshapeShapeInfer.infer true [2, 3, 4] [0, -1, 2] = Except.ok [2, 6, 2] ∧
    ([2, 6, 2] : VectorDims).getD 0 0 = ([2, 3, 4] : VectorDims).getD 0 0 := by
  have h : ReshapeShapeInfer.infer true [2, 3, 4] [0, -1, 2] = Except.ok [2, 6, 2] := by rfl
  exact ⟨h, (ReshapeShapeInfer_infer_special_zero true [2, 3, 4] [0, -1, 2] [2, 6, 2] h).1 rfl 0
    (by decide) (by decide) rfl⟩

end node
end intel_cpu
end ov

namespace ov
namespace intel_cpu
namespace node

/-- A pattern entry that fits a `size_t` is converted to itself. -/
theorem signed_to_size_t_natCast (d : Nat) (h : d < 2 ^ 64) : signed_to_size_t (d : Int) = d := by
  unfold signed_to_size_t
  omega

/-- Writing the entry that follows a prefix. -/
theorem set_length_append (l₁ l₂ : List Nat) (a b : Nat) :
    (l₁ ++ a :: l₂).set l₁.length b = l₁ ++ b :: l₂ := by
  induction l₁ with
  | nil => rfl
  | cons c l₁ ih => simp [ih]

/-- Reading the entry that follows a prefix. -/
theorem getD_length_append (l₁ l₂ : List Int) (a : Int) :
    (l₁ ++ a :: l₂).getD l₁.length 0 = a := by
  induction l₁ with
  | nil => rfl
  | cons c l₁ ih => simpa using ih

/-- An entry of a pattern read below its length is a member of the pattern. -/
theorem getD_mem_of_lt (pat : List Int) (j : Nat) (h : j < pat.length) : pat.getD j 0 ∈ pat := by
  rw [List.getD_eq_getElem _ _ h]
  exact List.getElem_mem h

/-- Without an entry 0 in the pattern, the first loop of `ReshapeShapeInfer::infer`
writes every pattern entry other than -1 to `outputShape`. -/
theorem map_scanned_dim_of_ne_zero (sz : Bool) (x : VectorDims) (pat : List Int)
    (h : ∀ v ∈ pat, v ≠ 0) :
    (List.range pat.length).map (scanned_dim sz x pat) =
      pat.map (fun v => if v = -1 then 0 else signed_to_size_t v) := by
  rw [← range_map_getD pat 0 (fun v => if v = -1 then 0 else signed_to_size_t v)]
  apply List.map_congr_left
  intro j hj
  have hj' : j < pat.length := List.mem_range.1 hj
  have hcop : ¬ is_copied sz x pat j := fun hc => h _ (getD_mem_of_lt pat j hj') hc.1
  unfold scanned_dim
  rw [if_neg hcop]

/-- Without an entry 0 in the pattern, the first loop of `ReshapeShapeInfer::infer`
multiplies every pattern entry other than -1 into `outputProduct`. -/
theorem map_scanned_factor_of_ne_zero (sz : Bool) (x : VectorDims) (pat : List Int)
    (h : ∀ v ∈ pat, v ≠ 0) :
    (List.range pat.length).map (scanned_factor sz x pat) =
      pat.map (fun v => if v = -1 then 1 else signed_to_size_t v) := by
  rw [← range_map_getD pat 0 (fun v => if v = -1 then 1 else signed_to_size_t v)]
  apply List.map_congr_left
  intro j hj
  have hj' : j < pat.length := List.mem_range.1 hj
  have hcop : ¬ is_copied sz x pat j := fun hc => h _ (getD_mem_of_lt pat j hj') hc.1
  unfold scanned_factor
  rw [if_neg hcop]

/-- Without an entry 0 in the pattern, the second loop of `ReshapeShapeInfer::infer`
multiplies every input dim into `inputProduct`. -/
theorem map_input_factor_of_ne_zero (sz : Bool) (x : VectorDims) (pat : List Int)
    (h : ∀ v ∈ pat, v ≠ 0) :
    (List.range x.length).map (input_factor sz x pat) = x := by
  have hx : (List.range x.length).map (fun j => x.getD j 0) = x := by
    have := range_map_getD x 0 (fun v => v)
    simpa using this
  conv_rhs => rw [← hx]
  apply List.map_congr_left
  intro j _
  have hskip : ¬ (j < pat.length ∧ pat.getD j 0 = 0 ∧ sz = true) :=
    fun hc => h _ (getD_mem_of_lt pat j hc.1) hc.2.1
  unfold input_factor
  rw [if_neg hskip]

/-- Mapping positive dims that fit a `size_t` to pattern entries and back. -/
theorem map_natCast_back (l : List Nat) (c : Nat) (h : ∀ d ∈ l, d < 2 ^ 64) :
    (l.map (fun d : Nat => (d : Int))).map (fun v => if v = -1 then c else signed_to_size_t v) =
      l := by
  rw [List.map_map]
  conv_rhs => rw [← List.map_id l]
  apply List.map_congr_left
  intro d hd
  have hne : ¬ ((d : Int) = -1) := by omega
  simp only [Function.comp, if_neg hne, id]
  exact signed_to_size_t_natCast d (h d hd)

/-- A member of a list of positive dims is at most their product. -/
theorem le_prod_of_mem_of_pos (l : List Nat) (hpos : ∀ d ∈ l, 0 < d) (d : Nat) (hd : d ∈ l) :
    d ≤ l.prod := by
  apply Nat.le_of_dvd
  · exact List.prod_pos hpos
  · exact List.dvd_prod hd

end node
end intel_cpu
end ov

namespace ov
namespace intel_cpu
namespace node

/-- The value of `outputShape` at the check of `ReshapeShapeInfer::infer` for a pattern
made of positive entries `pre`, one entry -1 and positive entries `post`, when the
product of the positive entries fits a `size_t` and the product of the input dims is
below `2 ^ 64`. -/
theorem checked_output_shape_single_minus_one (sz : Bool) (x : VectorDims) (pre post : List Nat)
    (hpos : ∀ d ∈ pre ++ post, 0 < d) (hP : pre.prod * post.prod < 2 ^ 64)
    (hN : x.prod < 2 ^ 64) :
    (scan_pattern sz x (pre.map (fun d : Nat => (d : Int)) ++
        -1 :: post.map (fun d : Nat => (d : Int)))
      (pre.map (fun d : Nat => (d : Int)) ++
        -1 :: post.map (fun d : Nat => (d : Int))).length).minusOneCount ≤ 1 ∧
    checked_output_shape sz x
      (pre.map (fun d : Nat => (d : Int)) ++ -1 :: post.map (fun d : Nat => (d : Int))) =
      pre ++ x.prod / (pre.prod * post.prod) :: post := by
  have hprod : (pre ++ post).prod = pre.prod * post.prod := List.prod_append
  have hbound : ∀ d ∈ pre ++ post, d < 2 ^ 64 := by
    intro d hd
    have := le_prod_of_mem_of_pos (pre ++ post) hpos d hd
    omega
  have hbpre : ∀ d ∈ pre, d < 2 ^ 64 := fun d hd => hbound d (List.mem_append_left _ hd)
  have hbpost : ∀ d ∈ post, d < 2 ^ 64 := fun d hd => hbound d (List.mem_append_right _ hd)
  have hPpos : 0 < pre.prod * post.prod := by
    rw [← hprod]
    exact List.prod_pos hpos
  generalize hpat : pre.map (fun d : Nat => (d : Int)) ++
    -1 :: post.map (fun d : Nat => (d : Int)) = pat
  have hne : ∀ v ∈ pat, v ≠ 0 := by
    intro v hv
    rw [← hpat] at hv
    simp only [List.mem_append, List.mem_cons, List.mem_map] at hv
    rcases hv with ⟨d, hd, rfl⟩ | rfl | ⟨d, hd, rfl⟩
    · have := hpos d (List.mem_append_left _ hd)
      omega
    · decide
    · have := hpos d (List.mem_append_right _ hd)
      omega
  have hlen : pat.length = pre.length + 1 + post.length := by
    rw [← hpat]
    simp
    omega
  have hat : pat.getD pre.length 0 = -1 := by
    rw [← hpat]
    have h := getD_length_append (pre.map (fun d : Nat => (d : Int)))
      (post.map (fun d : Nat => (d : Int))) (-1)
    rw [List.length_map] at h
    exact h
  have hcnt : pat.countP (fun v => decide (v = -1)) = 1 := by
    rw [← hpat, List.countP_append, List.countP_cons]
    have h1 : ∀ l : List Nat,
        (l.map (fun d : Nat => (d : Int))).countP (fun v => decide (v = -1)) = 0 := by
      intro l
      rw [List.countP_eq_zero]
      intro v hv
      simp only [List.mem_map] at hv
      obtain ⟨d, -, rfl⟩ := hv
      simp only [decide_eq_true_eq]
      omega
    rw [h1, h1]
    simp
  obtain ⟨h1, -, h3, h4, -, -, -, h8⟩ := scan_pattern_invariant sz x pat pat.length (le_refl _)
  have hcount : (scan_pattern sz x pat pat.length).minusOneCount ≤ 1 := by
    rw [h4, filter_range_eq_countP, hcnt]
    decide
  have hidx := h8 hcount pre.length (by omega) hat
  have h0 : 0 ≤ (scan_pattern sz x pat pat.length).minusOneIdx := by omega
  have ht : (scan_pattern sz x pat pat.length).minusOneIdx.toNat = pre.length := by omega
  have hshape : (scan_pattern sz x pat pat.length).outputShape = pre ++ 0 :: post := by
    rw [scan_pattern_outputShape, map_scanned_dim_of_ne_zero sz x pat hne, ← hpat,
      List.map_append, List.map_cons, map_natCast_back pre 0 hbpre,
      map_natCast_back post 0 hbpost]
    rfl
  have hout : (scan_pattern sz x pat pat.length).outputProduct = pre.prod * post.prod := by
    rw [h3, map_scanned_factor_of_ne_zero sz x pat hne, ← hpat,
      List.map_append, List.map_cons, map_natCast_back pre 1 hbpre,
      map_natCast_back post 1 hbpost]
    have : (if (-1 : Int) = -1 then 1 else signed_to_size_t (-1)) = 1 := rfl
    rw [this, List.prod_append, List.prod_cons, Nat.one_mul]
    exact Nat.mod_eq_of_lt hP
  have hin : (List.range x.length).foldl (input_product_step sz x pat) 1 = x.prod := by
    rw [input_product_fold, map_input_factor_of_ne_zero sz x pat hne]
    exact Nat.mod_eq_of_lt hN
  refine ⟨hcount, ?_⟩
  have hp : pre.prod * post.prod ≠ 0 := by omega
  unfold checked_output_shape
  simp only [if_pos h0, ht, hin, hout, hshape, if_pos hp]
  exact set_length_append pre post 0 _

/-- Within 32 bits the final check of `ReshapeShapeInfer::infer` is exact: for a pattern
made of positive entries `pre`, exactly one entry -1 and positive entries `post`, where
the product `P` of the positive entries fits a `size_t`, and an input shape whose
product `N` is below `2 ^ 32`, `infer` returns a shape `y` if and only if `P` divides
`N` and `y` is the pattern with the entry -1 replaced by `N / P`. -/
theorem ReshapeShapeInfer_infer_single_minus_one (sz : Bool) (x : VectorDims)
    (pre post : List Nat) (y : VectorDims)
    (hpos : ∀ d ∈ pre ++ post, 0 < d) (hP : pre.prod * post.prod < 2 ^ 64)
    (hN : x.prod < 2 ^ 32) :
    ReshapeShapeInfer.infer sz x
        (pre.map (fun d : Nat => (d : Int)) ++ -1 :: post.map (fun d : Nat => (d : Int))) =
        Except.ok y ↔
      pre.prod * post.prod ∣ x.prod ∧ y = pre ++ x.prod / (pre.prod * post.prod) :: post := by
  obtain ⟨hcount, hshape⟩ :=
    checked_output_shape_single_minus_one sz x pre post hpos hP (by omega)
  rw [ReshapeShapeInfer_infer_eq_ok_iff, hshape]
  have hyprod : (pre ++ x.prod / (pre.prod * post.prod) :: post).prod =
      pre.prod * post.prod * (x.prod / (pre.prod * post.prod)) := by
    rw [List.prod_append, List.prod_cons]
    ring
  have hle : pre.prod * post.prod * (x.prod / (pre.prod * post.prod)) ≤ x.prod :=
    Nat.mul_div_le _ _
  rw [hyprod, Nat.mod_eq_of_lt hN, Nat.mod_eq_of_lt (by omega)]
  constructor
  · rintro ⟨-, heq, hy⟩
    exact ⟨Dvd.intro _ heq.symm, hy⟩
  · rintro ⟨hdvd, hy⟩
    exact ⟨hcount, (Nat.mul_div_cancel' hdvd).symm, hy⟩

set_option maxRecDepth 100000 in
/-- Evaluation within 32 bits: the input shape `[2, 3, 4]` (24 elements) and the
pattern `[2, -1, 3]` give `[2, 4, 3]`. -/
theorem ReshapeShapeInfer_infer_single_minus_one_witness :
    (∀ d ∈ ([2] ++ [3] : List Nat), 0 < d) ∧
    ([2] : List Nat).prod * ([3] : List Nat).prod < 2 ^ 64 ∧
    ([2, 3, 4] : VectorDims).prod < 2 ^ 32 ∧
    ReshapeShapeInfer.infer false [2, 3, 4] [2, -1, 3] = Except.ok [2, 4, 3] :=
  ⟨by decide, by norm_num, by norm_num,
    (ReshapeShapeInfer_infer_single_minus_one false [2, 3, 4] [2] [3] [2, 4, 3]
      (by decide) (by norm_num) (by norm_num)).2 ⟨by decide, rfl⟩⟩

end node
end intel_cpu
end ov

namespace ov
namespace intel_cpu
namespace node

set_option maxRecDepth 100000 in
/-- Claim C14, the code at a failing input: the pattern `[4294967297, -1]` has exactly
one entry -1 and otherwise the positive entry 4294967297, so `P = 4294967297`; the input
shape `[8589934593]` has product `N = 8589934593`; both fit a `size_t`, so nothing
overflows. `P` does not divide `N`, yet `ReshapeShapeInfer::infer` returns the shape
`[4294967297, 1]`, with either value of `special_zero`: the two products of the final
check are accumulated in an `int` and agree in their low 32 bits, while the products
themselves differ. -/
theorem ReshapeShapeInfer_infer_wide_product_not_divisible (m_specialZero : Bool) :
    ReshapeShapeInfer.infer m_specialZero [8589934593] [4294967297, -1] =
      Except.ok [4294967297, 1] ∧
    ¬ (4294967297 ∣ ([8589934593] : VectorDims).prod) ∧
    ([8589934593] : VectorDims).prod < 2 ^ 64 ∧
    ([4294967297] : VectorDims).prod < 2 ^ 64 ∧
    accumulate_multiplies [8589934593] = accumulate_multiplies [4294967297, 1] ∧
    ([8589934593] : VectorDims).prod ≠ ([4294967297, 1] : VectorDims).prod := by
  cases m_specialZero
  · exact ⟨rfl, by decide, by decide, by decide, by decide, by decide⟩
  · exact ⟨rfl, by decide, by decide, by decide, by decide, by decide⟩

end node
end intel_cpu
end ov

namespace ov
namespace snippets
namespace pass

/-! ## Transpose support -/

/-- Claim C21: for a Transpose `n` with data input `in0`, order input `in1` and first
consumer `child` of output 0, `is_supported_transpose` accepts `n` only if the order
input is a Constant; with a Constant order `order_value`, when the data input is
produced by a Subgraph that is not `Completed`, `n` is accepted exactly when
`FuseTransposeBrgemm` accepts the order and the first consumer is a MatMul or the body
output of the Subgraph that feeds `n` is a MatMul; in every other case `n` is accepted
exactly when `TransposeDecomposition` accepts the order, or the first consumer is a
MatMul and `FuseTransposeBrgemm` accepts the order. -/
theorem is_supported_transpose_iff (E : Externals) (n : Node) (in0 in1 : Input)
    (ins : List Input) (out0 : Output) (outs : List Output) (child : Op) (children : List Op)
    (hT : n.op.type_info = NodeType.Transpose)
    (hin : n.inputs = in0 :: in1 :: ins) (hout : n.outputs = out0 :: outs)
    (hchild : out0.target_inputs = child :: children) :
    (is_supported_transpose E n = true →
      ∃ shape order_value, in1.source = Op.Constant shape order_value) ∧
    (∀ shape order_value, in1.source = Op.Constant shape order_value →
      (∀ type body_result_is_matmul,
        in0.source = Op.Subgraph type body_result_is_matmul →
        type ≠ SnippetsSubgraphType.Completed →
        (is_supported_transpose E n = true ↔
          E.brgemm_is_supported_transpose_order order_value = true ∧
            (child.type_info = NodeType.MatMul ∨
              body_result_is_matmul.getD in0.source_index false = true))) ∧
      ((¬ ∃ type body_result_is_matmul,
          in0.source = Op.Subgraph type body_result_is_matmul ∧
          type ≠ SnippetsSubgraphType.Completed) →
        (is_supported_transpose E n = true ↔
          E.decomposition_is_supported_transpose_order order_value = true ∨
            (child.type_info = NodeType.MatMul ∧
              E.brgemm_is_supported_transpose_order order_value = true)))) := by
  have hty : is_type NodeType.Transpose n = true := by simp [is_type, hT]
  refine ⟨?_, ?_⟩
  · intro h
    unfold is_supported_transpose at h
    rw [if_pos hty] at h
    simp only [hin, hout, hchild] at h
    cases hs : in1.source with
    | Constant shape order_value => exact ⟨shape, order_value, rfl⟩
    | _ => rw [hs] at h; cases h
  · intro shape order_value hconst
    refine ⟨?_, ?_⟩
    · intro type body hsub hne
      unfold is_supported_transpose
      rw [if_pos hty]
      simp only [hin, hout, hchild, hconst, hsub, if_pos hne]
      simp only [Bool.false_and, Bool.false_or, Bool.and_eq_true, Bool.or_eq_true,
        decide_eq_true_eq]
      exact and_comm
    · intro hno
      unfold is_supported_transpose
      rw [if_pos hty]
      simp only [hin, hout, hchild, hconst]
      cases hs : in0.source with
      | Subgraph type body =>
        have hcomp : ¬ (type ≠ SnippetsSubgraphType.Completed) :=
          fun hne => hno ⟨type, body, hs, hne⟩
        simp only [if_neg hcomp]
        simp only [Bool.true_and, Bool.and_eq_true, Bool.or_eq_true, decide_eq_true_eq]
      | _ =>
        simp only [Bool.true_and, Bool.and_eq_true, Bool.or_eq_true, decide_eq_true_eq]

/-- Claim C21, witness: a Transpose with order `[0, 2, 1, 3]` on output 1 of a Subgraph
that is not `Completed`, whose body feeds that output from a MatMul, is accepted,
although its first consumer is an Add. -/
theorem is_supported_transpose_iff_witness :
    (transpose_after_subgraph [0, 2, 1, 3]).op.type_info = NodeType.Transpose ∧
    is_supported_transpose transpose_externals (transpose_after_subgraph [0, 2, 1, 3]) = true :=
  ⟨rfl,
    ((((is_supported_transpose_iff transpose_externals (transpose_after_subgraph [0, 2, 1, 3])
      transpose_data_input (transpose_order_input [0, 2, 1, 3]) [] transpose_output []
      (Op.Simple NodeType.Add) [] rfl rfl rfl rfl).2 [4] [0, 2, 1, 3] rfl).1
      SnippetsSubgraphType.NotSet [false, true] rfl (by decide)).2 ⟨by decide, Or.inr rfl⟩)⟩

/-- The orders `TransposeDecomposition` accepts do not count after a Subgraph that is
not `Completed`: with the order `[0, 1, 3, 2]`, which `transpose_externals` accepts for
the decomposition only, the same Transpose is not accepted. -/
theorem is_supported_transpose_after_subgraph_decomposition_only :
    transpose_externals.decomposition_is_supported_transpose_order [0, 1, 3, 2] = true ∧
    is_supported_transpose transpose_externals (transpose_after_subgraph [0, 1, 3, 2]) = false := by
  decide

end pass
end snippets
end ov
